import Mathlib

/-!
Verification of the ALINE phonetic aligner (`src/historical/aline.py`).

The embedding works over exact rationals (`ℚ`) in place of Python floats; all
table values are short decimals, so every score is an exact rational.
Python dictionaries are modelled as association lists with last-binding-wins
lookup (a repeated key in a Python dict literal keeps the last value), and a
failed lookup (Python `KeyError`) is modelled as `none`.  Phonetic strings are
`List Char`; alignment pairs are pairs of `List Char` (a segment, a gap `'-'`,
or a two-segment expansion).
-/

namespace Aline

/-- Association-list find: first binding whose key matches. -/
def assocFind [DecidableEq α] : List (α × β) → α → Option β
  | [], _ => none
  | p :: l, k => if k = p.1 then some p.2 else assocFind l k

/-- Python dict lookup over a dict-literal association list: a repeated key
keeps the *last* binding, and a missing key is a `KeyError` (`none`). -/
def dict [DecidableEq α] (l : List (α × β)) (k : α) : Option β :=
  assocFind l.reverse k

-- === Constants ===

/-- Indel score constant (Kondrak 2002: 54). -/
def C_skip : ℚ := 10

/-- Substitution score constant. -/
def C_sub : ℚ := 35

/-- Expansion/compression score constant. -/
def C_exp : ℚ := 45

/-- Vowel/consonant relative weight. -/
def C_vwl : ℚ := 5

/-- The consonant set.  The source list contains one two-character entry
(a retroflex z followed by a space) that can never equal a single segment and
is therefore dropped; the bare retroflex z also occurs in the list. -/
def consonants : List Char :=
  ['B', 'N', 'R', 'b', 'c', 'd', 'f', 'g', 'h', 'j', 'k', 'l', 'm',
   'n', 'p', 'q', 'r', 's', 't', 'v', 'x', 'z', 'ç', 'ð', 'ħ',
   'ŋ', 'ɖ', 'ɟ', 'ɢ', 'ɣ', 'ɦ', 'ɬ', 'ɮ', 'ɰ', 'ɱ', 'ɲ', 'ɳ', 'ɴ',
   'ɸ', 'ɹ', 'ɻ', 'ɽ', 'ɾ', 'ʀ', 'ʁ', 'ʂ', 'ʃ', 'ʈ', 'ʋ', 'ʒ',
   'ʔ', 'ʕ', 'ʙ', 'ʝ', 'β', 'θ', 'χ', 'ʐ', 'w']

/-- Relevant features for comparing consonants. -/
def R_c : List String :=
  ["aspirated", "lateral", "manner", "nasal", "place", "retroflex",
   "syllabic", "voice"]

/-- Relevant features for comparing vowels. -/
def R_v : List String :=
  ["back", "lateral", "long", "manner", "nasal", "place",
   "retroflex", "round", "syllabic", "voice"]

/-- Flattened feature similarity matrix (Kondrak 2002: 56).  The key
`"vowel"` occurs twice in the source dict literal; Python keeps the second
binding (0.5), which `dict` reproduces. -/
def similarity_matrix : List (String × ℚ) :=
  [("bilabial", 1.0), ("labiodental", 0.95), ("dental", 0.9),
   ("alveolar", 0.85), ("retroflex", 0.8), ("palato-alveolar", 0.75),
   ("palatal", 0.7), ("velar", 0.6), ("uvular", 0.5), ("pharyngeal", 0.3),
   ("glottal", 0.1), ("labiovelar", 1.0), ("vowel", -1.0),
   ("stop", 1.0), ("affricate", 0.9), ("fricative", 0.8), ("trill", 0.7),
   ("tap", 0.65), ("approximant", 0.6), ("high vowel", 0.4),
   ("mid vowel", 0.2), ("low vowel", 0.0), ("vowel", 0.5),
   ("high", 1.0), ("mid", 0.5), ("low", 0.0),
   ("front", 1.0), ("central", 0.5), ("back", 0.0),
   ("plus", 1.0), ("minus", 0.0)]

/-- Relative weights (salience) of phonetic features (Kondrak 2002: 55). -/
def salience : List (String × ℚ) :=
  [("syllabic", 5), ("place", 40), ("manner", 50), ("voice", 10),
   ("nasal", 10), ("retroflex", 10), ("lateral", 10), ("aspirated", 5),
   ("long", 1), ("high", 3), ("back", 3), ("round", 3)]

/-- The feature table (Kondrak 2002: 59-60), transcribed entry by entry from
the source. -/
def feature_matrix : List (Char × List (String × String)) :=
  [('p', [("place", "bilabial"), ("manner", "stop"), ("syllabic", "minus"),
    ("voice", "minus"), ("nasal", "minus"), ("retroflex", "minus"),
    ("lateral", "minus"), ("aspirated", "minus")]),
   ('b', [("place", "bilabial"), ("manner", "stop"), ("syllabic", "minus"),
    ("voice", "plus"), ("nasal", "minus"), ("retroflex", "minus"),
    ("lateral", "minus"), ("aspirated", "minus")]),
   ('t', [("place", "alveolar"), ("manner", "stop"), ("syllabic", "minus"),
    ("voice", "minus"), ("nasal", "minus"), ("retroflex", "minus"),
    ("lateral", "minus"), ("aspirated", "minus")]),
   ('d', [("place", "alveolar"), ("manner", "stop"), ("syllabic", "minus"),
    ("voice", "plus"), ("nasal", "minus"), ("retroflex", "minus"),
    ("lateral", "minus"), ("aspirated", "minus")]),
   ('ʈ', [("place", "retroflex"), ("manner", "stop"), ("syllabic", "minus"),
    ("voice", "minus"), ("nasal", "minus"), ("retroflex", "plus"),
    ("lateral", "minus"), ("aspirated", "minus")]),
   ('ɖ', [("place", "retroflex"), ("manner", "stop"), ("syllabic", "minus"),
    ("voice", "plus"), ("nasal", "minus"), ("retroflex", "plus"),
    ("lateral", "minus"), ("aspirated", "minus")]),
   ('c', [("place", "palatal"), ("manner", "stop"), ("syllabic", "minus"),
    ("voice", "minus"), ("nasal", "minus"), ("retroflex", "minus"),
    ("lateral", "minus"), ("aspirated", "minus")]),
   ('ɟ', [("place", "palatal"), ("manner", "stop"), ("syllabic", "minus"),
    ("voice", "plus"), ("nasal", "minus"), ("retroflex", "minus"),
    ("lateral", "minus"), ("aspirated", "minus")]),
   ('k', [("place", "velar"), ("manner", "stop"), ("syllabic", "minus"),
    ("voice", "minus"), ("nasal", "minus"), ("retroflex", "minus"),
    ("lateral", "minus"), ("aspirated", "minus")]),
   ('g', [("place", "velar"), ("manner", "stop"), ("syllabic", "minus"),
    ("voice", "plus"), ("nasal", "minus"), ("retroflex", "minus"),
    ("lateral", "minus"), ("aspirated", "minus")]),
   ('q', [("place", "uvular"), ("manner", "stop"), ("syllabic", "minus"),
    ("voice", "minus"), ("nasal", "minus"), ("retroflex", "minus"),
    ("lateral", "minus"), ("aspirated", "minus")]),
   ('ɢ', [("place", "uvular"), ("manner", "stop"), ("syllabic", "minus"),
    ("voice", "plus"), ("nasal", "minus"), ("retroflex", "minus"),
    ("lateral", "minus"), ("aspirated", "minus")]),
   ('ʔ', [("place", "glottal"), ("manner", "stop"), ("syllabic", "minus"),
    ("voice", "minus"), ("nasal", "minus"), ("retroflex", "minus"),
    ("lateral", "minus"), ("aspirated", "minus")]),
   ('m', [("place", "bilabial"), ("manner", "stop"), ("syllabic", "minus"),
    ("voice", "plus"), ("nasal", "plus"), ("retroflex", "minus"),
    ("lateral", "minus"), ("aspirated", "minus")]),
   ('ɱ', [("place", "labiodental"), ("manner", "stop"), ("syllabic", "minus"),
    ("voice", "plus"), ("nasal", "plus"), ("retroflex", "minus"),
    ("lateral", "minus"), ("aspirated", "minus")]),
   ('n', [("place", "alveolar"), ("manner", "stop"), ("syllabic", "minus"),
    ("voice", "plus"), ("nasal", "plus"), ("retroflex", "minus"),
    ("lateral", "minus"), ("aspirated", "minus")]),
   ('ɳ', [("place", "retroflex"), ("manner", "stop"), ("syllabic", "minus"),
    ("voice", "plus"), ("nasal", "plus"), ("retroflex", "plus"),
    ("lateral", "minus"), ("aspirated", "minus")]),
   ('ɲ', [("place", "palatal"), ("manner", "stop"), ("syllabic", "minus"),
    ("voice", "plus"), ("nasal", "plus"), ("retroflex", "minus"),
    ("lateral", "minus"), ("aspirated", "minus")]),
   ('ŋ', [("place", "velar"), ("manner", "stop"), ("syllabic", "minus"),
    ("voice", "plus"), ("nasal", "plus"), ("retroflex", "minus"),
    ("lateral", "minus"), ("aspirated", "minus")]),
   ('ɴ', [("place", "uvular"), ("manner", "stop"), ("syllabic", "minus"),
    ("voice", "plus"), ("nasal", "plus"), ("retroflex", "minus"),
    ("lateral", "minus"), ("aspirated", "minus")]),
   ('N', [("place", "uvular"), ("manner", "stop"), ("syllabic", "minus"),
    ("voice", "plus"), ("nasal", "plus"), ("retroflex", "minus"),
    ("lateral", "minus"), ("aspirated", "minus")]),
   ('ʙ', [("place", "bilabial"), ("manner", "trill"), ("syllabic", "minus"),
    ("voice", "plus"), ("nasal", "minus"), ("retroflex", "minus"),
    ("lateral", "minus"), ("aspirated", "minus")]),
   ('B', [("place", "bilabial"), ("manner", "trill"), ("syllabic", "minus"),
    ("voice", "plus"), ("nasal", "minus"), ("retroflex", "minus"),
    ("lateral", "minus"), ("aspirated", "minus")]),
   ('r', [("place", "alveolar"), ("manner", "trill"), ("syllabic", "minus"),
    ("voice", "plus"), ("nasal", "minus"), ("retroflex", "plus"),
    ("lateral", "minus"), ("aspirated", "minus")]),
   ('ʀ', [("place", "uvular"), ("manner", "trill"), ("syllabic", "minus"),
    ("voice", "plus"), ("nasal", "minus"), ("retroflex", "minus"),
    ("lateral", "minus"), ("aspirated", "minus")]),
   ('R', [("place", "uvular"), ("manner", "trill"), ("syllabic", "minus"),
    ("voice", "plus"), ("nasal", "minus"), ("retroflex", "minus"),
    ("lateral", "minus"), ("aspirated", "minus")]),
   ('ɾ', [("place", "alveolar"), ("manner", "tap"), ("syllabic", "minus"),
    ("voice", "plus"), ("nasal", "minus"), ("retroflex", "minus"),
    ("lateral", "minus"), ("aspirated", "minus")]),
   ('ɽ', [("place", "retroflex"), ("manner", "tap"), ("syllabic", "minus"),
    ("voice", "plus"), ("nasal", "minus"), ("retroflex", "plus"),
    ("lateral", "minus"), ("aspirated", "minus")]),
   ('ɸ', [("place", "bilabial"), ("manner", "fricative"), ("syllabic", "minus"),
    ("voice", "minus"), ("nasal", "minus"), ("retroflex", "minus"),
    ("lateral", "minus"), ("aspirated", "minus")]),
   ('β', [("place", "bilabial"), ("manner", "fricative"), ("syllabic", "minus"),
    ("voice", "plus"), ("nasal", "minus"), ("retroflex", "minus"),
    ("lateral", "minus"), ("aspirated", "minus")]),
   ('f', [("place", "labiodental"), ("manner", "fricative"), ("syllabic", "minus"),
    ("voice", "minus"), ("nasal", "minus"), ("retroflex", "minus"),
    ("lateral", "minus"), ("aspirated", "minus")]),
   ('v', [("place", "labiodental"), ("manner", "fricative"), ("syllabic", "minus"),
    ("voice", "plus"), ("nasal", "minus"), ("retroflex", "minus"),
    ("lateral", "minus"), ("aspirated", "minus")]),
   ('θ', [("place", "dental"), ("manner", "fricative"), ("syllabic", "minus"),
    ("voice", "minus"), ("nasal", "minus"), ("retroflex", "minus"),
    ("lateral", "minus"), ("aspirated", "minus")]),
   ('ð', [("place", "labiodental"), ("manner", "fricative"), ("syllabic", "minus"),
    ("voice", "plus"), ("nasal", "minus"), ("retroflex", "minus"),
    ("lateral", "minus"), ("aspirated", "minus")]),
   ('s', [("place", "alveolar"), ("manner", "fricative"), ("syllabic", "minus"),
    ("voice", "minus"), ("nasal", "minus"), ("retroflex", "minus"),
    ("lateral", "minus"), ("aspirated", "minus")]),
   ('z', [("place", "alveolar"), ("manner", "fricative"), ("syllabic", "minus"),
    ("voice", "plus"), ("nasal", "minus"), ("retroflex", "minus"),
    ("lateral", "minus"), ("aspirated", "minus")]),
   ('ʃ', [("place", "palato-alveolar"), ("manner", "fricative"), ("syllabic", "minus"),
    ("voice", "minus"), ("nasal", "minus"), ("retroflex", "minus"),
    ("lateral", "minus"), ("aspirated", "minus")]),
   ('ʒ', [("place", "palato-alveolar"), ("manner", "fricative"), ("syllabic", "minus"),
    ("voice", "plus"), ("nasal", "minus"), ("retroflex", "minus"),
    ("lateral", "minus"), ("aspirated", "minus")]),
   ('ʂ', [("place", "retroflex"), ("manner", "fricative"), ("syllabic", "minus"),
    ("voice", "minus"), ("nasal", "minus"), ("retroflex", "plus"),
    ("lateral", "minus"), ("aspirated", "minus")]),
   ('ʐ', [("place", "retroflex"), ("manner", "fricative"), ("syllabic", "minus"),
    ("voice", "plus"), ("nasal", "minus"), ("retroflex", "plus"),
    ("lateral", "minus"), ("aspirated", "minus")]),
   ('ç', [("place", "palatal"), ("manner", "fricative"), ("syllabic", "minus"),
    ("voice", "minus"), ("nasal", "minus"), ("retroflex", "minus"),
    ("lateral", "minus"), ("aspirated", "minus")]),
   ('ʝ', [("place", "palatal"), ("manner", "fricative"), ("syllabic", "minus"),
    ("voice", "plus"), ("nasal", "minus"), ("retroflex", "minus"),
    ("lateral", "minus"), ("aspirated", "minus")]),
   ('x', [("place", "velar"), ("manner", "fricative"), ("syllabic", "minus"),
    ("voice", "minus"), ("nasal", "minus"), ("retroflex", "minus"),
    ("lateral", "minus"), ("aspirated", "minus")]),
   ('ɣ', [("place", "velar"), ("manner", "fricative"), ("syllabic", "minus"),
    ("voice", "plus"), ("nasal", "minus"), ("retroflex", "minus"),
    ("lateral", "minus"), ("aspirated", "minus")]),
   ('χ', [("place", "uvular"), ("manner", "fricative"), ("syllabic", "minus"),
    ("voice", "minus"), ("nasal", "minus"), ("retroflex", "minus"),
    ("lateral", "minus"), ("aspirated", "minus")]),
   ('ʁ', [("place", "uvular"), ("manner", "fricative"), ("syllabic", "minus"),
    ("voice", "plus"), ("nasal", "minus"), ("retroflex", "minus"),
    ("lateral", "minus"), ("aspirated", "minus")]),
   ('ħ', [("place", "pharyngeal"), ("manner", "fricative"), ("syllabic", "minus"),
    ("voice", "minus"), ("nasal", "minus"), ("retroflex", "minus"),
    ("lateral", "minus"), ("aspirated", "minus")]),
   ('ʕ', [("place", "pharyngeal"), ("manner", "fricative"), ("syllabic", "minus"),
    ("voice", "plus"), ("nasal", "minus"), ("retroflex", "minus"),
    ("lateral", "minus"), ("aspirated", "minus")]),
   ('h', [("place", "glottal"), ("manner", "fricative"), ("syllabic", "minus"),
    ("voice", "minus"), ("nasal", "minus"), ("retroflex", "minus"),
    ("lateral", "minus"), ("aspirated", "minus")]),
   ('ɦ', [("place", "glottal"), ("manner", "fricative"), ("syllabic", "minus"),
    ("voice", "plus"), ("nasal", "minus"), ("retroflex", "minus"),
    ("lateral", "minus"), ("aspirated", "minus")]),
   ('ɬ', [("place", "alveolar"), ("manner", "fricative"), ("syllabic", "minus"),
    ("voice", "minus"), ("nasal", "minus"), ("retroflex", "minus"),
    ("lateral", "plus"), ("aspirated", "minus")]),
   ('ɮ', [("place", "alveolar"), ("manner", "fricative"), ("syllabic", "minus"),
    ("voice", "plus"), ("nasal", "minus"), ("retroflex", "minus"),
    ("lateral", "plus"), ("aspirated", "minus")]),
   ('ʋ', [("place", "labiodental"), ("manner", "approximant"), ("syllabic", "minus"),
    ("voice", "plus"), ("nasal", "minus"), ("retroflex", "minus"),
    ("lateral", "minus"), ("aspirated", "minus")]),
   ('ɹ', [("place", "alveolar"), ("manner", "approximant"), ("syllabic", "minus"),
    ("voice", "plus"), ("nasal", "minus"), ("retroflex", "minus"),
    ("lateral", "minus"), ("aspirated", "minus")]),
   ('ɻ', [("place", "retroflex"), ("manner", "approximant"), ("syllabic", "minus"),
    ("voice", "plus"), ("nasal", "minus"), ("retroflex", "plus"),
    ("lateral", "minus"), ("aspirated", "minus")]),
   ('j', [("place", "palatal"), ("manner", "approximant"), ("syllabic", "minus"),
    ("voice", "plus"), ("nasal", "minus"), ("retroflex", "minus"),
    ("lateral", "minus"), ("aspirated", "minus")]),
   ('ɰ', [("place", "velar"), ("manner", "approximant"), ("syllabic", "minus"),
    ("voice", "plus"), ("nasal", "minus"), ("retroflex", "minus"),
    ("lateral", "minus"), ("aspirated", "minus")]),
   ('l', [("place", "alveolar"), ("manner", "approximant"), ("syllabic", "minus"),
    ("voice", "plus"), ("nasal", "minus"), ("retroflex", "minus"),
    ("lateral", "plus"), ("aspirated", "minus")]),
   ('w', [("place", "labiovelar"), ("manner", "approximant"), ("syllabic", "minus"),
    ("voice", "plus"), ("nasal", "minus"), ("retroflex", "minus"),
    ("lateral", "minus"), ("aspirated", "minus")]),
   ('i', [("place", "vowel"), ("manner", "vowel"), ("syllabic", "plus"),
    ("voice", "plus"), ("nasal", "minus"), ("retroflex", "minus"),
    ("lateral", "minus"), ("high", "high"), ("back", "front"),
    ("round", "minus"), ("long", "minus"), ("aspirated", "minus")]),
   ('y', [("place", "vowel"), ("manner", "vowel"), ("syllabic", "plus"),
    ("voice", "plus"), ("nasal", "minus"), ("retroflex", "minus"),
    ("lateral", "minus"), ("high", "high"), ("back", "front"),
    ("round", "plus"), ("long", "minus"), ("aspirated", "minus")]),
   ('e', [("place", "vowel"), ("manner", "vowel"), ("syllabic", "plus"),
    ("voice", "plus"), ("nasal", "minus"), ("retroflex", "minus"),
    ("lateral", "minus"), ("high", "mid"), ("back", "front"),
    ("round", "minus"), ("long", "minus"), ("aspirated", "minus")]),
   ('ø', [("place", "vowel"), ("manner", "vowel"), ("syllabic", "plus"),
    ("voice", "plus"), ("nasal", "minus"), ("retroflex", "minus"),
    ("lateral", "minus"), ("high", "mid"), ("back", "front"),
    ("round", "plus"), ("long", "minus"), ("aspirated", "minus")]),
   ('ɛ', [("place", "vowel"), ("manner", "vowel"), ("syllabic", "plus"),
    ("voice", "plus"), ("nasal", "minus"), ("retroflex", "minus"),
    ("lateral", "minus"), ("high", "mid"), ("back", "front"),
    ("round", "minus"), ("long", "minus"), ("aspirated", "minus")]),
   ('œ', [("place", "vowel"), ("manner", "vowel"), ("syllabic", "plus"),
    ("voice", "plus"), ("nasal", "minus"), ("retroflex", "minus"),
    ("lateral", "minus"), ("high", "mid"), ("back", "front"),
    ("round", "plus"), ("long", "minus"), ("aspirated", "minus")]),
   ('a', [("place", "vowel"), ("manner", "vowel"), ("syllabic", "plus"),
    ("voice", "plus"), ("nasal", "minus"), ("retroflex", "minus"),
    ("lateral", "minus"), ("high", "low"), ("back", "front"),
    ("round", "minus"), ("long", "minus"), ("aspirated", "minus")]),
   ('ɨ', [("place", "vowel"), ("manner", "vowel"), ("syllabic", "plus"),
    ("voice", "plus"), ("nasal", "minus"), ("retroflex", "minus"),
    ("lateral", "minus"), ("high", "high"), ("back", "central"),
    ("round", "minus"), ("long", "minus"), ("aspirated", "minus")]),
   ('ʉ', [("place", "vowel"), ("manner", "vowel"), ("syllabic", "plus"),
    ("voice", "plus"), ("nasal", "minus"), ("retroflex", "minus"),
    ("lateral", "minus"), ("high", "high"), ("back", "central"),
    ("round", "plus"), ("long", "minus"), ("aspirated", "minus")]),
   ('ə', [("place", "vowel"), ("manner", "vowel"), ("syllabic", "plus"),
    ("voice", "plus"), ("nasal", "minus"), ("retroflex", "minus"),
    ("lateral", "minus"), ("high", "mid"), ("back", "central"),
    ("round", "minus"), ("long", "minus"), ("aspirated", "minus")]),
   ('u', [("place", "vowel"), ("manner", "vowel"), ("syllabic", "plus"),
    ("voice", "plus"), ("nasal", "minus"), ("retroflex", "minus"),
    ("lateral", "minus"), ("high", "high"), ("back", "back"),
    ("round", "plus"), ("long", "minus"), ("aspirated", "minus")]),
   ('o', [("place", "vowel"), ("manner", "vowel"), ("syllabic", "plus"),
    ("voice", "plus"), ("nasal", "minus"), ("retroflex", "minus"),
    ("lateral", "minus"), ("high", "mid"), ("back", "back"),
    ("round", "plus"), ("long", "minus"), ("aspirated", "minus")]),
   ('ɔ', [("place", "vowel"), ("manner", "vowel"), ("syllabic", "plus"),
    ("voice", "plus"), ("nasal", "minus"), ("retroflex", "minus"),
    ("lateral", "minus"), ("high", "mid"), ("back", "back"),
    ("round", "plus"), ("long", "minus"), ("aspirated", "minus")]),
   ('ɒ', [("place", "vowel"), ("manner", "vowel"), ("syllabic", "plus"),
    ("voice", "plus"), ("nasal", "minus"), ("retroflex", "minus"),
    ("lateral", "minus"), ("high", "low"), ("back", "back"),
    ("round", "minus"), ("long", "minus"), ("aspirated", "minus")])]

-- === Scoring functions ===

/-- Relevant features for a segment comparison: the consonant set if either
segment is a consonant, else the vowel set. -/
def R (p q : Char) : List String :=
  if p ∈ consonants ∨ q ∈ consonants then R_c else R_v

/-- Vowel weight: zero for consonants, `C_vwl` otherwise. -/
def V (p : Char) : ℚ :=
  if p ∈ consonants then 0 else C_vwl

/-- Difference between segments `p` and `q` for feature `f`: absolute
difference of the similarity values of their feature values.  Any missing
table entry is a `KeyError` (`none`). -/
def diff (p q : Char) (f : String) : Option ℚ := do
  let pf ← dict feature_matrix p
  let qf ← dict feature_matrix q
  let pv ← dict pf f
  let ps ← dict similarity_matrix pv
  let qv ← dict qf f
  let qs ← dict similarity_matrix qv
  pure |ps - qs|

/-- Weighted sum of feature differences between `p` and `q`. -/
def delta (p q : Char) : Option ℚ :=
  (R p q).foldlM
    (fun total f => do
      let d ← diff p q f
      let w ← dict salience f
      pure (total + d * w))
    0

/-- Score of an indel. -/
def sigma_skip (_p : Char) : ℚ := C_skip

/-- Score of a substitution of `p` with `q`. -/
def sigma_sub (p q : Char) : Option ℚ := do
  let d ← delta p q
  pure (C_sub - d - V p - V q)

/-- Score of an expansion/compression of `p` against the two adjacent
segments `q.1 q.2`. -/
def sigma_exp (p : Char) (q : Char × Char) : Option ℚ := do
  let d1 ← delta p q.1
  let d2 ← delta p q.2
  pure (C_exp - d1 - d2 - V p - max (V q.1) (V q.2))

/-- A segment has a Feature Table entry. -/
def known (c : Char) : Prop := (dict feature_matrix c).isSome = true

instance (c : Char) : Decidable (known c) := by unfold known; infer_instance

/-- Every segment of a sequence has a Feature Table entry. -/
def allKnown (s : List Char) : Prop := ∀ c ∈ s, known c

instance (s : List Char) : Decidable (allKnown s) := by
  unfold allKnown; infer_instance

/-- Value of `sigma_sub` under a successful lookup (0 is a junk default,
used only outside the `known` domain). -/
def subValue (p q : Char) : ℚ := (sigma_sub p q).getD 0

/-- Value of `sigma_exp` under a successful lookup. -/
def expValue (p : Char) (q : Char × Char) : ℚ := (sigma_exp p q).getD 0

example : dict similarity_matrix "vowel" = some 0.5 := by with_unfolding_all decide
example : subValue 'n' 'n' = 35 := by with_unfolding_all decide
example : subValue 'θ' 't' = 23 := by with_unfolding_all decide
example : subValue 'i' 'e' = 25 := by with_unfolding_all decide
example : diff '1' 'a' "place" = none := by with_unfolding_all decide

-- === The score matrix and the alignment algorithm ===

/-- The score matrix, as a total function on indices; cells that the fill
never writes stay at their initial value 0 (row 0 and column 0 in
particular). -/
abbrev Mat := Nat → Nat → ℚ

/-- Write one cell of the matrix. -/
def upd (S : Mat) (i j : Nat) (v : ℚ) : Mat :=
  fun a b => if a = i ∧ b = j then v else S a b

/-- Segment at position `k` (total version of `str[k]`; the default is never
reached at in-range indices). -/
def seg (s : List Char) (k : Nat) : Char := s.getD k '-'

/-- One alignment pair: a piece of each string (a segment, a gap `'-'`, or
two segments for an expansion). -/
abbrev Pair := List Char × List Char

/-- The cells `(i, 1) ... (i, n)` of row `i`, in loop order. -/
def rowCells (i n : Nat) : List (Nat × Nat) :=
  (List.range' 1 n).map (fun j => (i, j))

/-- All interior cells `(i, j)`, `1 ≤ i ≤ m`, `1 ≤ j ≤ n`, in the source's
row-major loop order. -/
def cellList (m n : Nat) : List (Nat × Nat) :=
  ((List.range' 1 m).map (fun i => rowCells i n)).flatten

/-- One iteration of the fill loop at cell `p`: compute the five edit
scores (expansions only when `i > 1` resp. `j > 1`, which the source
excludes by setting them to `-inf`; since 0 is always a candidate of the
max, omitting them is the same value) and write the floored max. -/
def step (s1 s2 : List Char) (S : Mat) (p : Nat × Nat) : Option Mat := do
  let i := p.1
  let j := p.2
  let c1 ← s1.get? (i-1)
  let c2 ← s2.get? (j-1)
  let e1 := S (i-1) j + sigma_skip c1
  let e2 := S i (j-1) + sigma_skip c2
  let v3 ← sigma_sub c1 c2
  let c4 ← if 1 < i then do
      let c0 ← s1.get? (i-2)
      let e ← sigma_exp c2 (c0, c1)
      pure [S (i-2) (j-1) + e]
    else pure []
  let c5 ← if 1 < j then do
      let q0 ← s2.get? (j-2)
      let e ← sigma_exp c1 (q0, c2)
      pure [S (i-1) (j-2) + e]
    else pure []
  pure (upd S i j (List.foldl max 0 ([e1, e2, S (i-1) (j-1) + v3] ++ c4 ++ c5)))

/-- The dynamic-programming fill of `align`: start from the all-zero matrix
(`np.zeros`) and run the double loop. -/
def buildS (s1 s2 : List Char) : Option Mat :=
  (cellList s1.length s2.length).foldlM (step s1 s2) (fun _ _ => 0)

/-- All cells of the `(m+1) × (n+1)` matrix. -/
def allCells (m n : Nat) : List (Nat × Nat) :=
  ((List.range (m+1)).map (fun i => (List.range (n+1)).map (fun j => (i, j)))).flatten

/-- `np.amax`: the maximum entry of the matrix. -/
def amax (S : Mat) (m n : Nat) : ℚ :=
  ((allCells m n).map (fun p => S p.1 p.2)).foldl max (S 0 0)

/-- The retrieval `_retrieve`, translated clause by clause; `fuel` bounds the
recursion depth (the recursion strictly decreases `i + j`, so any fuel above
`i + j` is enough; `none` means the fuel ran out — never reached from
`align`).  Each guard re-evaluates its scores exactly as the source does,
and the final fall-through returns the accumulated list. -/
def retrieve (S : Mat) (T : ℚ) (s1 s2 : List Char) :
    Nat → Nat → Nat → ℚ → List Pair → Option (List Pair)
  | 0, _, _, _, _ => none
  | fuel+1, i, j, s, out =>
    if S i j = 0 then some out else do
      let b1 ← if 1 < j then do
          let c ← s1.get? (i-1)
          let q1 ← s2.get? (j-2)
          let q2 ← s2.get? (j-1)
          let e ← sigma_exp c (q1, q2)
          pure (decide (S (i-1) (j-2) + e + s ≥ T))
        else pure false
      if b1 then do
        let c ← s1.get? (i-1)
        let q1 ← s2.get? (j-2)
        let q2 ← s2.get? (j-1)
        let e ← sigma_exp c (q1, q2)
        retrieve S T s1 s2 fuel (i-1) (j-2) (s + e) (([c], [q1, q2]) :: out)
      else do
        let b2 ← if 1 < i then do
            let c0 ← s1.get? (i-2)
            let c ← s1.get? (i-1)
            let q ← s2.get? (j-1)
            let e ← sigma_exp q (c0, c)
            pure (decide (S (i-2) (j-1) + e + s ≥ T))
          else pure false
        if b2 then do
          let c0 ← s1.get? (i-2)
          let c ← s1.get? (i-1)
          let q ← s2.get? (j-1)
          let e ← sigma_exp q (c0, c)
          retrieve S T s1 s2 fuel (i-2) (j-1) (s + e) (([c0, c], [q]) :: out)
        else do
          let c ← s1.get? (i-1)
          let q ← s2.get? (j-1)
          let e ← sigma_sub c q
          if S (i-1) (j-1) + e + s ≥ T then
            retrieve S T s1 s2 fuel (i-1) (j-1) (s + e) (([c], [q]) :: out)
          else if S i (j-1) + sigma_skip q + s ≥ T then
            retrieve S T s1 s2 fuel i (j-1) (s + sigma_skip q) ((['-'], [q]) :: out)
          else if S (i-1) j + sigma_skip c + s ≥ T then
            retrieve S T s1 s2 fuel (i-1) j (s + sigma_skip c) (([c], ['-']) :: out)
          else
            some out

/-- `align`: fill the matrix, compute the near-optimality threshold
`T = (1-epsilon) * max(S)`, and retrieve one alignment from every cell
scoring at least `T`, in loop order. -/
def align (s1 s2 : List Char) (eps : ℚ) : Option (List (List Pair)) := do
  let S ← buildS s1 s2
  let T := (1 - eps) * amax S s1.length s2.length
  ((cellList s1.length s2.length).filter (fun p => decide (S p.1 p.2 ≥ T))).mapM
    (fun p => retrieve S T s1 s2 (s1.length + s2.length + 1) p.1 p.2 0 [])

/-- The retrieval procedure as the spec describes it: return the accumulated
path exactly at a zero-score cell, otherwise take the first of the five
moves (in the fixed priority order) whose reconstructed partial score
reaches the threshold; `none` if no move qualifies (the spec asserts this
cannot happen) or the fuel runs out. -/
def retrieveSpec (S : Mat) (T : ℚ) (s1 s2 : List Char) :
    Nat → Nat → Nat → ℚ → List Pair → Option (List Pair)
  | 0, _, _, _, _ => none
  | fuel+1, i, j, s, out =>
    if S i j = 0 then some out
    else if 1 < j ∧ S (i-1) (j-2) + expValue (seg s1 (i-1)) (seg s2 (j-2), seg s2 (j-1)) + s ≥ T then
      retrieveSpec S T s1 s2 fuel (i-1) (j-2)
        (s + expValue (seg s1 (i-1)) (seg s2 (j-2), seg s2 (j-1)))
        (([seg s1 (i-1)], [seg s2 (j-2), seg s2 (j-1)]) :: out)
    else if 1 < i ∧ S (i-2) (j-1) + expValue (seg s2 (j-1)) (seg s1 (i-2), seg s1 (i-1)) + s ≥ T then
      retrieveSpec S T s1 s2 fuel (i-2) (j-1)
        (s + expValue (seg s2 (j-1)) (seg s1 (i-2), seg s1 (i-1)))
        (([seg s1 (i-2), seg s1 (i-1)], [seg s2 (j-1)]) :: out)
    else if S (i-1) (j-1) + subValue (seg s1 (i-1)) (seg s2 (j-1)) + s ≥ T then
      retrieveSpec S T s1 s2 fuel (i-1) (j-1)
        (s + subValue (seg s1 (i-1)) (seg s2 (j-1)))
        (([seg s1 (i-1)], [seg s2 (j-1)]) :: out)
    else if S i (j-1) + sigma_skip (seg s2 (j-1)) + s ≥ T then
      retrieveSpec S T s1 s2 fuel i (j-1) (s + sigma_skip (seg s2 (j-1)))
        ((['-'], [seg s2 (j-1)]) :: out)
    else if S (i-1) j + sigma_skip (seg s1 (i-1)) + s ≥ T then
      retrieveSpec S T s1 s2 fuel (i-1) j (s + sigma_skip (seg s1 (i-1)))
        (([seg s1 (i-1)], ['-']) :: out)
    else none

/-- The cell at which a retrieval started at `(i, j)` terminates (same
recursion as the retrieval, observing the final cell instead of the path). -/
def retrieveEnd (S : Mat) (T : ℚ) (s1 s2 : List Char) :
    Nat → Nat → Nat → ℚ → Option (Nat × Nat)
  | 0, _, _, _ => none
  | fuel+1, i, j, s =>
    if S i j = 0 then some (i, j)
    else if 1 < j ∧ S (i-1) (j-2) + expValue (seg s1 (i-1)) (seg s2 (j-2), seg s2 (j-1)) + s ≥ T then
      retrieveEnd S T s1 s2 fuel (i-1) (j-2)
        (s + expValue (seg s1 (i-1)) (seg s2 (j-2), seg s2 (j-1)))
    else if 1 < i ∧ S (i-2) (j-1) + expValue (seg s2 (j-1)) (seg s1 (i-2), seg s1 (i-1)) + s ≥ T then
      retrieveEnd S T s1 s2 fuel (i-2) (j-1)
        (s + expValue (seg s2 (j-1)) (seg s1 (i-2), seg s1 (i-1)))
    else if S (i-1) (j-1) + subValue (seg s1 (i-1)) (seg s2 (j-1)) + s ≥ T then
      retrieveEnd S T s1 s2 fuel (i-1) (j-1)
        (s + subValue (seg s1 (i-1)) (seg s2 (j-1)))
    else if S i (j-1) + sigma_skip (seg s2 (j-1)) + s ≥ T then
      retrieveEnd S T s1 s2 fuel i (j-1) (s + sigma_skip (seg s2 (j-1)))
    else if S (i-1) j + sigma_skip (seg s1 (i-1)) + s ≥ T then
      retrieveEnd S T s1 s2 fuel (i-1) j (s + sigma_skip (seg s1 (i-1)))
    else none

-- === Value-level form of the recurrence ===

/-- The candidate scores of one cell (reading an arbitrary matrix). -/
def cands (s1 s2 : List Char) (S : Mat) (i j : Nat) : List ℚ :=
  [S (i-1) j + sigma_skip (seg s1 (i-1)),
   S i (j-1) + sigma_skip (seg s2 (j-1)),
   S (i-1) (j-1) + subValue (seg s1 (i-1)) (seg s2 (j-1))] ++
  (if 1 < i then [S (i-2) (j-1) + expValue (seg s2 (j-1)) (seg s1 (i-2), seg s1 (i-1))] else []) ++
  (if 1 < j then [S (i-1) (j-2) + expValue (seg s1 (i-1)) (seg s2 (j-2), seg s2 (j-1))] else [])

/-- The floored max of the candidate scores. -/
def cellVal (s1 s2 : List Char) (S : Mat) (i j : Nat) : ℚ :=
  List.foldl max 0 (cands s1 s2 S i j)

/-- The recurrence, solved: the intended value of every matrix cell, by
well-founded recursion over the cell (base row and column are 0). -/
def F (s1 s2 : List Char) : Nat → Nat → ℚ
  | 0, _ => 0
  | _+1, 0 => 0
  | i+1, j+1 =>
    List.foldl max 0
      ([F s1 s2 i (j+1) + sigma_skip (seg s1 i),
        F s1 s2 (i+1) j + sigma_skip (seg s2 j),
        F s1 s2 i j + subValue (seg s1 i) (seg s2 j)] ++
       (if 1 < i+1 then
          [F s1 s2 (i-1) j + expValue (seg s2 j) (seg s1 (i-1), seg s1 i)] else []) ++
       (if 1 < j+1 then
          [F s1 s2 i (j-1) + expValue (seg s1 i) (seg s2 (j-1), seg s2 j)] else []))
termination_by i j => i + j
decreasing_by all_goals simp_wf <;> omega

/-- The final matrix: the recurrence restricted to the written cells. -/
def SF (s1 s2 : List Char) : Mat :=
  fun a b =>
    if 1 ≤ a ∧ a ≤ s1.length ∧ 1 ≤ b ∧ b ≤ s2.length then F s1 s2 a b else 0

-- === Generic helper lemmas ===

theorem le_foldl_max {α : Type} [LinearOrder α] (l : List α) (a : α) :
    a ≤ l.foldl max a := by
  induction l generalizing a with
  | nil => exact le_refl a
  | cons x t ih => exact le_trans (le_max_left a x) (ih (max a x))

theorem mem_le_foldl_max {α : Type} [LinearOrder α] {l : List α} {x : α} (a : α)
    (hx : x ∈ l) : x ≤ l.foldl max a := by
  induction l generalizing a with
  | nil => cases hx
  | cons y t ih =>
    rw [List.foldl_cons]
    rcases List.mem_cons.mp hx with h | h
    · subst h; exact le_trans (le_max_right a x) (le_foldl_max t (max a x))
    · exact ih (max a y) h

theorem foldl_max_eq_or_mem {α : Type} [LinearOrder α] (l : List α) (a : α) :
    l.foldl max a = a ∨ l.foldl max a ∈ l := by
  induction l generalizing a with
  | nil => exact Or.inl rfl
  | cons x t ih =>
    rw [List.foldl_cons]
    rcases ih (max a x) with h | h
    · rcases le_total a x with hax | hxa
      · right
        rw [h, max_eq_right hax]
        exact List.mem_cons_self x t
      · left
        rw [h, max_eq_left hxa]
    · right
      exact List.mem_cons_of_mem x h

theorem some_getD {α : Type} (o : Option α) (d : α) (h : o.isSome = true) :
    o = some (o.getD d) := by
  cases o with
  | none => cases h
  | some a => rfl

theorem foldlM_none_of_mem {σ α : Type} (f : σ → α → Option σ) {x : α}
    (l : List α) (hx : x ∈ l) (hf : ∀ s, f s x = none) :
    ∀ s, l.foldlM f s = none := by
  induction l with
  | nil => cases hx
  | cons a t ih =>
    intro s
    rcases List.mem_cons.mp hx with h | h
    · subst h
      simp [List.foldlM_cons, hf s]
    · cases ha : f s a with
      | none => simp [List.foldlM_cons, ha]
      | some s' => simp [List.foldlM_cons, ha, ih h]

theorem mapM_some_of_forall {α β : Type} (f : α → Option β) (l : List α)
    (h : ∀ x ∈ l, (f x).isSome = true) :
    ∃ ys, l.mapM f = some ys ∧ ys.length = l.length := by
  induction l with
  | nil => exact ⟨[], rfl, rfl⟩
  | cons a t ih =>
    obtain ⟨b, hb⟩ := Option.isSome_iff_exists.mp (h a (List.mem_cons_self a t))
    obtain ⟨ys, hys, hlen⟩ := ih (fun x hx => h x (List.mem_cons_of_mem a hx))
    refine ⟨b :: ys, ?_, by simp [hlen]⟩
    rw [List.mapM_cons, hb, hys]
    rfl

theorem filter_length_mono {α : Type} (l : List α) (p q : α → Bool)
    (h : ∀ x ∈ l, p x = true → q x = true) :
    (l.filter p).length ≤ (l.filter q).length := by
  induction l with
  | nil => exact le_refl 0
  | cons a t ih =>
    have ht := ih (fun x hx => h x (List.mem_cons_of_mem a hx))
    by_cases hp : p a = true
    · rw [List.filter_cons_of_pos hp,
        List.filter_cons_of_pos (h a (List.mem_cons_self a t) hp)]
      simpa using ht
    · rw [List.filter_cons_of_neg (by simpa using hp)]
      cases hq : q a
      · rw [List.filter_cons_of_neg (by simp [hq])]
        exact ht
      · rw [List.filter_cons_of_pos hq]
        exact le_trans ht (Nat.le_succ _)

theorem foldlM_congr_fun {σ α : Type} {f g : σ → α → Option σ} (l : List α)
    (h : ∀ s a, f s a = g s a) : ∀ s, l.foldlM f s = l.foldlM g s := by
  induction l with
  | nil => intro s; rfl
  | cons a t ih =>
    intro s
    rw [List.foldlM_cons, List.foldlM_cons, h s a]
    cases g s a with
    | none => rfl
    | some s' => simpa using ih s'

theorem assocFind_mem {α β : Type} [DecidableEq α] {l : List (α × β)} {k : α}
    {v : β} (h : assocFind l k = some v) : (k, v) ∈ l := by
  induction l with
  | nil => cases h
  | cons p t ih =>
    rw [assocFind] at h
    split at h
    case isTrue hk =>
      cases h
      rw [hk]
      exact List.mem_cons_self _ _
    case isFalse hk =>
      exact List.mem_cons_of_mem _ (ih h)

theorem dict_mem {α β : Type} [DecidableEq α] {l : List (α × β)} {k : α} {v : β}
    (h : dict l k = some v) : (k, v) ∈ l :=
  List.mem_reverse.mp (assocFind_mem h)

theorem get?_eq_seg (s : List Char) (k : Nat) (hk : k < s.length) :
    s.get? k = some (seg s k) := by
  induction s generalizing k with
  | nil => cases hk
  | cons a t ih =>
    cases k with
    | zero => rfl
    | succ k' =>
      have : k' < t.length := Nat.lt_of_succ_lt_succ hk
      simpa [seg, List.getD] using ih k' this

theorem seg_mem (s : List Char) (k : Nat) (hk : k < s.length) : seg s k ∈ s := by
  induction s generalizing k with
  | nil => cases hk
  | cons a t ih =>
    cases k with
    | zero => exact List.mem_cons_self a t
    | succ k' =>
      have : k' < t.length := Nat.lt_of_succ_lt_succ hk
      simpa [seg, List.getD] using List.mem_cons_of_mem a (by simpa [seg, List.getD] using ih k' this)

-- === Totality of the scoring functions on known segments ===

/-- One feature-table entry supports every lookup the scoring functions
make: every relevant feature is present, its value is in the similarity
scale, and its salience is defined. -/
def entryOK (pe : Char × List (String × String)) : Bool :=
  (R_c.all fun f =>
    ((dict pe.2 f).bind (dict similarity_matrix)).isSome && (dict salience f).isSome) &&
  (decide (pe.1 ∈ consonants) ||
    R_v.all fun f =>
      ((dict pe.2 f).bind (dict similarity_matrix)).isSome && (dict salience f).isSome)

theorem entries_ok : ∀ pe ∈ feature_matrix, entryOK pe = true := by
  with_unfolding_all decide

theorem chain_of_entryOK {e : List (String × String)} {f : String}
    (h : ((dict e f).bind (dict similarity_matrix)).isSome = true) :
    ∃ v s, dict e f = some v ∧ dict similarity_matrix v = some s := by
  cases hv : dict e f with
  | none => rw [hv] at h; cases h
  | some v =>
    rw [hv] at h
    obtain ⟨s, hs⟩ := Option.isSome_iff_exists.mp h
    exact ⟨v, s, rfl, hs⟩

theorem entry_feature_ok {p : Char} {e : List (String × String)} {f : String}
    (hmem : (p, e) ∈ feature_matrix) (hf : f ∈ R_c ∨ (p ∉ consonants ∧ f ∈ R_v)) :
    (∃ v s, dict e f = some v ∧ dict similarity_matrix v = some s) ∧
      (dict salience f).isSome = true := by
  have hok := entries_ok (p, e) hmem
  rw [entryOK, Bool.and_eq_true] at hok
  rcases hf with hf | ⟨hp, hf⟩
  · have h1 := (List.all_eq_true.mp hok.1) f hf
    rw [Bool.and_eq_true] at h1
    exact ⟨chain_of_entryOK h1.1, h1.2⟩
  · have h2 := hok.2
    rw [Bool.or_eq_true] at h2
    rcases h2 with h2 | h2
    · exact absurd (of_decide_eq_true h2) hp
    · have h1 := (List.all_eq_true.mp h2) f hf
      rw [Bool.and_eq_true] at h1
      exact ⟨chain_of_entryOK h1.1, h1.2⟩

theorem known_entry {p : Char} (hp : known p) :
    ∃ e, dict feature_matrix p = some e ∧ (p, e) ∈ feature_matrix := by
  obtain ⟨e, he⟩ := Option.isSome_iff_exists.mp hp
  exact ⟨e, he, dict_mem he⟩

theorem diff_salience_isSome {p q : Char} {f : String} (hp : known p)
    (hq : known q) (hf : f ∈ R p q) :
    (diff p q f).isSome = true ∧ (dict salience f).isSome = true := by
  obtain ⟨pe, hpe, hpm⟩ := known_entry hp
  obtain ⟨qe, hqe, hqm⟩ := known_entry hq
  rw [R] at hf
  by_cases hc : p ∈ consonants ∨ q ∈ consonants
  · rw [if_pos hc] at hf
    obtain ⟨⟨pv, ps, hpv, hps⟩, hsal⟩ := entry_feature_ok hpm (Or.inl hf)
    obtain ⟨⟨qv, qs, hqv, hqs⟩, _⟩ := entry_feature_ok hqm (Or.inl hf)
    refine ⟨?_, hsal⟩
    rw [diff, hpe, hqe]
    simp [hpv, hps, hqv, hqs]
  · rw [if_neg hc] at hf
    push_neg at hc
    obtain ⟨⟨pv, ps, hpv, hps⟩, hsal⟩ := entry_feature_ok hpm (Or.inr ⟨hc.1, hf⟩)
    obtain ⟨⟨qv, qs, hqv, hqs⟩, _⟩ := entry_feature_ok hqm (Or.inr ⟨hc.2, hf⟩)
    refine ⟨?_, hsal⟩
    rw [diff, hpe, hqe]
    simp [hpv, hps, hqv, hqs]

theorem delta_fold_isSome (p q : Char) (fs : List String)
    (h : ∀ f ∈ fs, (diff p q f).isSome = true ∧ (dict salience f).isSome = true) :
    ∀ acc : ℚ,
      (fs.foldlM
        (fun total f => do
          let d ← diff p q f
          let w ← dict salience f
          pure (total + d * w))
        acc).isSome = true := by
  induction fs with
  | nil => intro acc; rfl
  | cons f t ih =>
    intro acc
    obtain ⟨d, hd⟩ := Option.isSome_iff_exists.mp (h f (List.mem_cons_self f t)).1
    obtain ⟨w, hw⟩ := Option.isSome_iff_exists.mp (h f (List.mem_cons_self f t)).2
    have ht := ih (fun g hg => h g (List.mem_cons_of_mem f hg))
    simp only [List.foldlM_cons, hd, hw]
    simpa using ht (acc + d * w)

theorem delta_isSome {p q : Char} (hp : known p) (hq : known q) :
    (delta p q).isSome = true := by
  rw [delta]
  exact delta_fold_isSome p q (R p q)
    (fun f hf => diff_salience_isSome hp hq hf) 0

theorem sigma_sub_eq {p q : Char} (hp : known p) (hq : known q) :
    sigma_sub p q = some (subValue p q) := by
  apply some_getD
  rw [sigma_sub]
  obtain ⟨d, hd⟩ := Option.isSome_iff_exists.mp (delta_isSome hp hq)
  simp [hd]

theorem sigma_exp_eq {p q1 q2 : Char} (hp : known p) (h1 : known q1)
    (h2 : known q2) :
    sigma_exp p (q1, q2) = some (expValue p (q1, q2)) := by
  apply some_getD
  rw [sigma_exp]
  obtain ⟨d1, hd1⟩ := Option.isSome_iff_exists.mp (delta_isSome hp h1)
  obtain ⟨d2, hd2⟩ := Option.isSome_iff_exists.mp (delta_isSome hp h2)
  simp [hd1, hd2]

-- === Symmetry and self-identity of the scoring functions ===

theorem R_comm (p q : Char) : R p q = R q p := by
  unfold R
  by_cases h : p ∈ consonants ∨ q ∈ consonants
  · rw [if_pos h, if_pos h.symm]
  · rw [if_neg h, if_neg (fun hc => h hc.symm)]

theorem diff_comm (p q : Char) (f : String) : diff p q f = diff q p f := by
  unfold diff
  cases hp : dict feature_matrix p with
  | none =>
    cases hq : dict feature_matrix q with
    | none => rfl
    | some qe => rfl
  | some pe =>
    cases hq : dict feature_matrix q with
    | none => rfl
    | some qe =>
      simp only [Option.bind_eq_bind, Option.some_bind]
      cases hpv : dict pe f with
      | none =>
        simp only [Option.none_bind]
        cases hqv : dict qe f with
        | none => rfl
        | some qv =>
          simp only [Option.some_bind]
          cases dict similarity_matrix qv with
          | none => rfl
          | some qs => rfl
      | some pv =>
        simp only [Option.some_bind]
        cases hqv : dict qe f with
        | none =>
          simp only [Option.none_bind]
          cases dict similarity_matrix pv with
          | none => rfl
          | some ps => rfl
        | some qv =>
          simp only [Option.some_bind]
          cases hps : dict similarity_matrix pv with
          | none =>
            simp only [Option.none_bind]
            cases dict similarity_matrix qv with
            | none => rfl
            | some qs => rfl
          | some ps =>
            simp only [Option.some_bind]
            cases hqs : dict similarity_matrix qv with
            | none => rfl
            | some qs =>
              simp only [Option.some_bind, Option.pure_def]
              rw [abs_sub_comm]

theorem delta_comm (p q : Char) : delta p q = delta q p := by
  unfold delta
  rw [R_comm]
  exact foldlM_congr_fun (R q p) (fun acc f => by rw [diff_comm]) 0

theorem sigma_sub_comm (p q : Char) : sigma_sub p q = sigma_sub q p := by
  unfold sigma_sub
  rw [delta_comm]
  cases delta q p with
  | none => rfl
  | some d => simp; ring

theorem diff_self (a : Char) (f : String) (h : (diff a a f).isSome = true) :
    diff a a f = some 0 := by
  rw [diff] at h ⊢
  cases he : dict feature_matrix a with
  | none => rw [he] at h; simp at h
  | some e =>
    rw [he] at h
    simp only [Option.bind_eq_bind, Option.some_bind] at h ⊢
    cases hv : dict e f with
    | none => rw [hv] at h; simp at h
    | some v =>
      rw [hv] at h
      simp only [Option.some_bind] at h ⊢
      cases hs : dict similarity_matrix v with
      | none => rw [hs] at h; simp at h
      | some s => simp [sub_self, abs_zero]

theorem delta_self {a : Char} (ha : known a) : delta a a = some 0 := by
  have hsome := delta_isSome ha ha
  rw [delta] at hsome ⊢
  have key : ∀ (fs : List String) (acc : ℚ),
      ((fs.foldlM
        (fun total f => do
          let d ← diff a a f
          let w ← dict salience f
          pure (total + d * w))
        acc).isSome = true) →
      fs.foldlM
        (fun total f => do
          let d ← diff a a f
          let w ← dict salience f
          pure (total + d * w))
        acc = some acc := by
    intro fs
    induction fs with
    | nil => intro acc _; rfl
    | cons f t ih =>
      intro acc hacc
      simp only [List.foldlM_cons] at hacc ⊢
      cases hd : diff a a f with
      | none => rw [hd] at hacc; simp at hacc
      | some d =>
        have hd0 : d = 0 := by
          have h0 := diff_self a f (by rw [hd]; rfl)
          rw [hd] at h0
          exact Option.some.inj h0
        subst hd0
        rw [hd] at hacc
        cases hw : dict salience f with
        | none => rw [hw] at hacc; simp at hacc
        | some w =>
          rw [hw] at hacc
          simp only [Option.bind_eq_bind, Option.some_bind, Option.pure_def,
            zero_mul, add_zero] at hacc ⊢
          exact ih acc hacc
  exact key (R a a) 0 hsome

-- === The fill satisfies the recurrence ===

theorem F_zero_left (s1 s2 : List Char) (j : Nat) : F s1 s2 0 j = 0 := by
  simp only [F]

theorem F_zero_right (s1 s2 : List Char) (i : Nat) : F s1 s2 i 0 = 0 := by
  cases i with
  | zero => simp only [F]
  | succ i' => simp only [F]

theorem F_succ_eq (s1 s2 : List Char) (i j : Nat) :
    F s1 s2 (i+1) (j+1) = cellVal s1 s2 (F s1 s2) (i+1) (j+1) := by
  simp only [F]
  rw [cellVal, cands]
  rfl

theorem F_nonneg (s1 s2 : List Char) (i j : Nat) : 0 ≤ F s1 s2 i j := by
  cases i with
  | zero => rw [F_zero_left]
  | succ i' =>
    cases j with
    | zero => rw [F_zero_right]
    | succ j' =>
      rw [F_succ_eq, cellVal]
      exact le_foldl_max _ 0

theorem cellVal_congr (s1 s2 : List Char) (S S' : Mat) (i j : Nat)
    (h1 : S (i-1) j = S' (i-1) j) (h2 : S i (j-1) = S' i (j-1))
    (h3 : S (i-1) (j-1) = S' (i-1) (j-1)) (h4 : S (i-2) (j-1) = S' (i-2) (j-1))
    (h5 : S (i-1) (j-2) = S' (i-1) (j-2)) :
    cellVal s1 s2 S i j = cellVal s1 s2 S' i j := by
  rw [cellVal, cellVal, cands, cands, h1, h2, h3, h4, h5]

theorem step_eq (s1 s2 : List Char) (h1 : allKnown s1) (h2 : allKnown s2)
    (i j : Nat) (hi1 : 1 ≤ i) (hi2 : i ≤ s1.length) (hj1 : 1 ≤ j)
    (hj2 : j ≤ s2.length) (S : Mat) :
    step s1 s2 S (i, j) = some (upd S i j (cellVal s1 s2 S i j)) := by
  have hc1 : s1.get? (i-1) = some (seg s1 (i-1)) := get?_eq_seg _ _ (by omega)
  have hc2 : s2.get? (j-1) = some (seg s2 (j-1)) := get?_eq_seg _ _ (by omega)
  have hk1 : known (seg s1 (i-1)) := h1 _ (seg_mem _ _ (by omega))
  have hk2 : known (seg s2 (j-1)) := h2 _ (seg_mem _ _ (by omega))
  rw [step, cellVal, cands]
  simp only [Option.bind_eq_bind, hc1, hc2, Option.some_bind, sigma_sub_eq hk1 hk2]
  by_cases h4 : 1 < i
  · have hc0 : s1.get? (i-2) = some (seg s1 (i-2)) := get?_eq_seg _ _ (by omega)
    have hk0 : known (seg s1 (i-2)) := h1 _ (seg_mem _ _ (by omega))
    by_cases h5 : 1 < j
    · have hq0 : s2.get? (j-2) = some (seg s2 (j-2)) := get?_eq_seg _ _ (by omega)
      have hkq0 : known (seg s2 (j-2)) := h2 _ (seg_mem _ _ (by omega))
      simp only [if_pos h4, if_pos h5, hc0, hq0, Option.some_bind,
        sigma_exp_eq hk2 hk0 hk1, sigma_exp_eq hk1 hkq0 hk2, Option.pure_def]
    · simp only [if_pos h4, if_neg h5, hc0, Option.some_bind,
        sigma_exp_eq hk2 hk0 hk1, Option.pure_def]
  · by_cases h5 : 1 < j
    · have hq0 : s2.get? (j-2) = some (seg s2 (j-2)) := get?_eq_seg _ _ (by omega)
      have hkq0 : known (seg s2 (j-2)) := h2 _ (seg_mem _ _ (by omega))
      simp only [if_neg h4, if_pos h5, hq0, Option.some_bind,
        sigma_exp_eq hk1 hkq0 hk2, Option.pure_def]
    · simp only [if_neg h4, if_neg h5, Option.some_bind, Option.pure_def]

theorem row_fill (s1 s2 : List Char) (h1 : allKnown s1) (h2 : allKnown s2)
    (i : Nat) (hi1 : 1 ≤ i) (hi2 : i ≤ s1.length) :
    ∀ k, k ≤ s2.length → ∀ M : Mat,
      (∀ a b, M a b =
        if 1 ≤ a ∧ 1 ≤ b ∧ b ≤ s2.length ∧ a < i then F s1 s2 a b else 0) →
      ∃ M', ((List.range' 1 k).map (fun j => (i, j))).foldlM (step s1 s2) M = some M' ∧
        ∀ a b, M' a b =
          if 1 ≤ a ∧ 1 ≤ b ∧ b ≤ s2.length ∧ (a < i ∨ (a = i ∧ b ≤ k))
          then F s1 s2 a b else 0 := by
  intro k
  induction k with
  | zero =>
    intro _ M hM
    refine ⟨M, rfl, fun a b => ?_⟩
    rw [hM a b]
    by_cases hc : 1 ≤ a ∧ 1 ≤ b ∧ b ≤ s2.length ∧ a < i
    · rw [if_pos hc, if_pos (by omega)]
    · rw [if_neg hc, if_neg (by omega)]
  | succ k ih =>
    intro hk M hM
    obtain ⟨M', hfold, hM'⟩ := ih (by omega) M hM
    rw [List.range'_1_concat, List.map_append, List.foldlM_append, hfold]
    rw [show (1 : Nat) + k = k + 1 from Nat.add_comm 1 k]
    simp only [List.map_cons, List.map_nil, List.foldlM_cons, List.foldlM_nil,
      Option.bind_eq_bind, Option.some_bind]
    rw [step_eq s1 s2 h1 h2 i (k+1) hi1 hi2 (by omega) (by omega) M']
    have hread : ∀ a b, a ≤ s1.length → b ≤ s2.length →
        (a < i ∨ a = 0 ∨ b = 0 ∨ (a = i ∧ b ≤ k)) → M' a b = F s1 s2 a b := by
      intro a b ha hb hcase
      rw [hM' a b]
      by_cases hc : 1 ≤ a ∧ 1 ≤ b ∧ b ≤ s2.length ∧ (a < i ∨ (a = i ∧ b ≤ k))
      · rw [if_pos hc]
      · rw [if_neg hc]
        have h0 : a = 0 ∨ b = 0 := by omega
        rcases h0 with rfl | rfl
        · rw [F_zero_left]
        · rw [F_zero_right]
    have hval : cellVal s1 s2 M' i (k+1) = F s1 s2 i (k+1) := by
      obtain ⟨i', rfl⟩ : ∃ i', i = i' + 1 := ⟨i - 1, by omega⟩
      rw [F_succ_eq]
      exact cellVal_congr s1 s2 M' (F s1 s2) (i'+1) (k+1)
        (hread _ _ (by omega) (by omega) (by omega))
        (hread _ _ (by omega) (by omega) (by omega))
        (hread _ _ (by omega) (by omega) (by omega))
        (hread _ _ (by omega) (by omega) (by omega))
        (hread _ _ (by omega) (by omega) (by omega))
    rw [hval]
    refine ⟨upd M' i (k+1) (F s1 s2 i (k+1)), by simp, fun a b => ?_⟩
    rw [upd]
    by_cases hab : a = i ∧ b = k+1
    · obtain ⟨rfl, rfl⟩ := hab
      rw [if_pos ⟨rfl, rfl⟩, if_pos (by omega)]
    · rw [if_neg hab, hM' a b]
      by_cases hc : 1 ≤ a ∧ 1 ≤ b ∧ b ≤ s2.length ∧ (a < i ∨ (a = i ∧ b ≤ k))
      · rw [if_pos hc, if_pos (by omega)]
      · rw [if_neg hc, if_neg (by omega)]

theorem grid_fill (s1 s2 : List Char) (h1 : allKnown s1) (h2 : allKnown s2) :
    ∀ r, r ≤ s1.length →
      ∃ M', (((List.range' 1 r).map (fun i => rowCells i s2.length)).flatten).foldlM
            (step s1 s2) (fun _ _ => 0) = some M' ∧
        ∀ a b, M' a b =
          if 1 ≤ a ∧ a ≤ r ∧ 1 ≤ b ∧ b ≤ s2.length then F s1 s2 a b else 0 := by
  intro r
  induction r with
  | zero =>
    intro _
    refine ⟨fun _ _ => 0, rfl, fun a b => ?_⟩
    rw [if_neg (by omega)]
  | succ r ih =>
    intro hr
    obtain ⟨M, hfold, hM⟩ := ih (by omega)
    rw [List.range'_1_concat, List.map_append, List.flatten_append,
      List.foldlM_append, hfold]
    rw [show (1 : Nat) + r = r + 1 from Nat.add_comm 1 r]
    simp only [List.map_cons, List.map_nil, List.flatten_cons, List.flatten_nil,
      List.append_nil, Option.bind_eq_bind, Option.some_bind]
    have hbase : ∀ a b, M a b =
        if 1 ≤ a ∧ 1 ≤ b ∧ b ≤ s2.length ∧ a < r+1 then F s1 s2 a b else 0 := by
      intro a b
      rw [hM a b]
      by_cases hc : 1 ≤ a ∧ a ≤ r ∧ 1 ≤ b ∧ b ≤ s2.length
      · rw [if_pos hc, if_pos (by omega)]
      · rw [if_neg hc, if_neg (by omega)]
    obtain ⟨M', hrow, hM'⟩ :=
      row_fill s1 s2 h1 h2 (r+1) (by omega) hr s2.length (le_refl _) M hbase
    rw [rowCells]
    refine ⟨M', hrow, fun a b => ?_⟩
    rw [hM' a b]
    by_cases hc : 1 ≤ a ∧ 1 ≤ b ∧ b ≤ s2.length ∧ (a < r+1 ∨ (a = r+1 ∧ b ≤ s2.length))
    · rw [if_pos hc, if_pos (by omega)]
    · rw [if_neg hc, if_neg (by omega)]

theorem buildS_eq (s1 s2 : List Char) (h1 : allKnown s1) (h2 : allKnown s2) :
    buildS s1 s2 = some (SF s1 s2) := by
  obtain ⟨M, hfold, hM⟩ := grid_fill s1 s2 h1 h2 s1.length (le_refl _)
  rw [buildS, cellList, hfold]
  congr 1
  funext a b
  rw [hM a b, SF]

-- === Facts about the final matrix ===

theorem SF_boundary_row (s1 s2 : List Char) (j : Nat) : SF s1 s2 0 j = 0 := by
  rw [SF, if_neg (by omega)]

theorem SF_boundary_col (s1 s2 : List Char) (i : Nat) : SF s1 s2 i 0 = 0 := by
  rw [SF, if_neg (by omega)]

theorem SF_nonneg (s1 s2 : List Char) (a b : Nat) : 0 ≤ SF s1 s2 a b := by
  rw [SF]
  by_cases hc : 1 ≤ a ∧ a ≤ s1.length ∧ 1 ≤ b ∧ b ≤ s2.length
  · rw [if_pos hc]; exact F_nonneg s1 s2 a b
  · rw [if_neg hc]

theorem F_eq_SF (s1 s2 : List Char) (a b : Nat) (ha : a ≤ s1.length)
    (hb : b ≤ s2.length) : F s1 s2 a b = SF s1 s2 a b := by
  rcases Nat.eq_zero_or_pos a with rfl | ha1
  · rw [F_zero_left, SF_boundary_row]
  rcases Nat.eq_zero_or_pos b with rfl | hb1
  · rw [F_zero_right, SF_boundary_col]
  rw [SF, if_pos ⟨ha1, ha, hb1, hb⟩]

theorem SF_rec (s1 s2 : List Char) (i j : Nat) (hi1 : 1 ≤ i) (hi2 : i ≤ s1.length)
    (hj1 : 1 ≤ j) (hj2 : j ≤ s2.length) :
    SF s1 s2 i j = cellVal s1 s2 (SF s1 s2) i j := by
  obtain ⟨i', rfl⟩ : ∃ i', i = i' + 1 := ⟨i - 1, by omega⟩
  obtain ⟨j', rfl⟩ : ∃ j', j = j' + 1 := ⟨j - 1, by omega⟩
  rw [SF, if_pos (by omega), F_succ_eq]
  exact cellVal_congr s1 s2 (F s1 s2) (SF s1 s2) (i'+1) (j'+1)
    (F_eq_SF s1 s2 _ _ (by omega) (by omega))
    (F_eq_SF s1 s2 _ _ (by omega) (by omega))
    (F_eq_SF s1 s2 _ _ (by omega) (by omega))
    (F_eq_SF s1 s2 _ _ (by omega) (by omega))
    (F_eq_SF s1 s2 _ _ (by omega) (by omega))

theorem SF_ge_skip (s1 s2 : List Char) (i j : Nat) (hi1 : 1 ≤ i)
    (hi2 : i ≤ s1.length) (hj1 : 1 ≤ j) (hj2 : j ≤ s2.length) :
    C_skip ≤ SF s1 s2 i j := by
  rw [SF_rec s1 s2 i j hi1 hi2 hj1 hj2, cellVal]
  have hmem : SF s1 s2 (i-1) j + sigma_skip (seg s1 (i-1)) ∈
      cands s1 s2 (SF s1 s2) i j := by
    rw [cands]
    exact List.mem_append_left _ (List.mem_append_left _ (List.mem_cons_self _ _))
  have hge : C_skip ≤ SF s1 s2 (i-1) j + sigma_skip (seg s1 (i-1)) := by
    have := SF_nonneg s1 s2 (i-1) j
    rw [sigma_skip]
    linarith
  exact le_trans hge (mem_le_foldl_max 0 hmem)

theorem le_amax (S : Mat) (m n i j : Nat) (hi : i ≤ m) (hj : j ≤ n) :
    S i j ≤ amax S m n := by
  have hmem : (i, j) ∈ allCells m n := by
    rw [allCells]
    refine List.mem_flatten.mpr ⟨(List.range (n+1)).map (fun b => (i, b)), ?_, ?_⟩
    · exact List.mem_map.mpr ⟨i, List.mem_range.mpr (by omega), rfl⟩
    · exact List.mem_map.mpr ⟨j, List.mem_range.mpr (by omega), rfl⟩
  exact mem_le_foldl_max _ (List.mem_map.mpr ⟨(i, j), hmem, rfl⟩)

theorem amax_SF_nonneg (s1 s2 : List Char) :
    0 ≤ amax (SF s1 s2) s1.length s2.length := by
  have h0 : SF s1 s2 0 0 = 0 := SF_boundary_row s1 s2 0
  have := le_foldl_max (((allCells s1.length s2.length).map
    (fun p => SF s1 s2 p.1 p.2))) (SF s1 s2 0 0)
  rw [h0] at this
  exact this

-- === Retrieval: the procedure always moves and ends at a zero cell ===

theorem SF_mem_cands (s1 s2 : List Char) (i j : Nat) (hi1 : 1 ≤ i)
    (hi2 : i ≤ s1.length) (hj1 : 1 ≤ j) (hj2 : j ≤ s2.length)
    (hne : SF s1 s2 i j ≠ 0) :
    SF s1 s2 i j ∈ cands s1 s2 (SF s1 s2) i j := by
  have h := SF_rec s1 s2 i j hi1 hi2 hj1 hj2
  rw [cellVal] at h
  rcases foldl_max_eq_or_mem (cands s1 s2 (SF s1 s2) i j) 0 with h' | h'
  · rw [h'] at h; exact absurd h hne
  · rw [h]; exact h'

theorem cands_cases {s1 s2 : List Char} {S : Mat} {i j : Nat} {x : ℚ}
    (hx : x ∈ cands s1 s2 S i j) :
    x = S (i-1) j + sigma_skip (seg s1 (i-1)) ∨
    x = S i (j-1) + sigma_skip (seg s2 (j-1)) ∨
    x = S (i-1) (j-1) + subValue (seg s1 (i-1)) (seg s2 (j-1)) ∨
    (1 < i ∧ x = S (i-2) (j-1) + expValue (seg s2 (j-1)) (seg s1 (i-2), seg s1 (i-1))) ∨
    (1 < j ∧ x = S (i-1) (j-2) + expValue (seg s1 (i-1)) (seg s2 (j-2), seg s2 (j-1))) := by
  rw [cands] at hx
  rcases List.mem_append.mp hx with hx | hx
  · rcases List.mem_append.mp hx with hx | hx
    · rcases List.mem_cons.mp hx with h | hx
      · exact Or.inl h
      rcases List.mem_cons.mp hx with h | hx
      · exact Or.inr (Or.inl h)
      rcases List.mem_cons.mp hx with h | hx
      · exact Or.inr (Or.inr (Or.inl h))
      · cases hx
    · by_cases h4 : 1 < i
      · rw [if_pos h4] at hx
        exact Or.inr (Or.inr (Or.inr (Or.inl ⟨h4, List.mem_singleton.mp hx⟩)))
      · rw [if_neg h4] at hx; cases hx
  · by_cases h5 : 1 < j
    · rw [if_pos h5] at hx
      exact Or.inr (Or.inr (Or.inr (Or.inr ⟨h5, List.mem_singleton.mp hx⟩)))
    · rw [if_neg h5] at hx; cases hx

theorem retrieve_branch3 (s1 s2 : List Char) (h1 : allKnown s1)
    (h2 : allKnown s2) (T : ℚ) (fuel i j : Nat) (s : ℚ) (out : List Pair)
    (hi : i ≤ s1.length) (hj : j ≤ s2.length) (hi1 : 1 ≤ i) (hj1 : 1 ≤ j)
    (h0 : ¬ SF s1 s2 i j = 0)
    (hp1 : ¬(1 < j ∧ SF s1 s2 (i-1) (j-2) +
      expValue (seg s1 (i-1)) (seg s2 (j-2), seg s2 (j-1)) + s ≥ T))
    (hp2 : ¬(1 < i ∧ SF s1 s2 (i-2) (j-1) +
      expValue (seg s2 (j-1)) (seg s1 (i-2), seg s1 (i-1)) + s ≥ T))
    (hp3 : SF s1 s2 (i-1) (j-1) + subValue (seg s1 (i-1)) (seg s2 (j-1)) + s ≥ T) :
    retrieve (SF s1 s2) T s1 s2 (fuel+1) i j s out =
      retrieve (SF s1 s2) T s1 s2 fuel (i-1) (j-1)
        (s + subValue (seg s1 (i-1)) (seg s2 (j-1)))
        (([seg s1 (i-1)], [seg s2 (j-1)]) :: out) := by
  have hk1 : known (seg s1 (i-1)) := h1 _ (seg_mem _ _ (by omega))
  have hk2 : known (seg s2 (j-1)) := h2 _ (seg_mem _ _ (by omega))
  have hc1 : s1.get? (i-1) = some (seg s1 (i-1)) := get?_eq_seg _ _ (by omega)
  have hc2 : s2.get? (j-1) = some (seg s2 (j-1)) := get?_eq_seg _ _ (by omega)
  have hsub := sigma_sub_eq hk1 hk2
  by_cases hj2 : 1 < j
  · have hq0 : s2.get? (j-2) = some (seg s2 (j-2)) := get?_eq_seg _ _ (by omega)
    have hkq0 : known (seg s2 (j-2)) := h2 _ (seg_mem _ _ (by omega))
    have hexp1 := sigma_exp_eq hk1 hkq0 hk2
    have hnc1 : ¬(SF s1 s2 (i-1) (j-2) +
        expValue (seg s1 (i-1)) (seg s2 (j-2), seg s2 (j-1)) + s ≥ T) :=
      fun hb => hp1 ⟨hj2, hb⟩
    by_cases hi2 : 1 < i
    · have hc0 : s1.get? (i-2) = some (seg s1 (i-2)) := get?_eq_seg _ _ (by omega)
      have hk0 : known (seg s1 (i-2)) := h1 _ (seg_mem _ _ (by omega))
      have hexp2 := sigma_exp_eq hk2 hk0 hk1
      have hnc2 : ¬(SF s1 s2 (i-2) (j-1) +
          expValue (seg s2 (j-1)) (seg s1 (i-2), seg s1 (i-1)) + s ≥ T) :=
        fun hb => hp2 ⟨hi2, hb⟩
      simp only [retrieve, if_neg h0, if_pos hj2, if_pos hi2,
        Option.bind_eq_bind, hc1, hc2, hq0, hc0, Option.some_bind, hexp1,
        hexp2, hsub, Option.pure_def, decide_eq_true_eq, if_neg hnc1,
        if_neg hnc2, if_pos hp3]
    · simp only [retrieve, if_neg h0, if_pos hj2, if_neg hi2,
        Option.bind_eq_bind, hc1, hc2, hq0, Option.some_bind, hexp1, hsub,
        Option.pure_def, decide_eq_true_eq, if_neg hnc1, Bool.false_eq_true,
        if_false, if_pos hp3]
  · by_cases hi2 : 1 < i
    · have hc0 : s1.get? (i-2) = some (seg s1 (i-2)) := get?_eq_seg _ _ (by omega)
      have hk0 : known (seg s1 (i-2)) := h1 _ (seg_mem _ _ (by omega))
      have hexp2 := sigma_exp_eq hk2 hk0 hk1
      have hnc2 : ¬(SF s1 s2 (i-2) (j-1) +
          expValue (seg s2 (j-1)) (seg s1 (i-2), seg s1 (i-1)) + s ≥ T) :=
        fun hb => hp2 ⟨hi2, hb⟩
      simp only [retrieve, if_neg h0, if_neg hj2, if_pos hi2,
        Option.bind_eq_bind, hc1, hc2, hc0, Option.some_bind, hexp2, hsub,
        Option.pure_def, decide_eq_true_eq, Bool.false_eq_true, if_false,
        if_neg hnc2, if_pos hp3]
    · simp only [retrieve, if_neg h0, if_neg hj2, if_neg hi2,
        Option.bind_eq_bind, hc1, hc2, Option.some_bind, hsub,
        Option.pure_def, decide_eq_true_eq, Bool.false_eq_true, if_false,
        if_pos hp3]

theorem retrieve_branch4 (s1 s2 : List Char) (h1 : allKnown s1)
    (h2 : allKnown s2) (T : ℚ) (fuel i j : Nat) (s : ℚ) (out : List Pair)
    (hi : i ≤ s1.length) (hj : j ≤ s2.length) (hi1 : 1 ≤ i) (hj1 : 1 ≤ j)
    (h0 : ¬ SF s1 s2 i j = 0)
    (hp1 : ¬(1 < j ∧ SF s1 s2 (i-1) (j-2) +
      expValue (seg s1 (i-1)) (seg s2 (j-2), seg s2 (j-1)) + s ≥ T))
    (hp2 : ¬(1 < i ∧ SF s1 s2 (i-2) (j-1) +
      expValue (seg s2 (j-1)) (seg s1 (i-2), seg s1 (i-1)) + s ≥ T))
    (hp3 : ¬(SF s1 s2 (i-1) (j-1) + subValue (seg s1 (i-1)) (seg s2 (j-1)) + s ≥ T))
    (hp4 : SF s1 s2 i (j-1) + sigma_skip (seg s2 (j-1)) + s ≥ T) :
    retrieve (SF s1 s2) T s1 s2 (fuel+1) i j s out =
      retrieve (SF s1 s2) T s1 s2 fuel i (j-1)
        (s + sigma_skip (seg s2 (j-1))) ((['-'], [seg s2 (j-1)]) :: out) := by
  have hk1 : known (seg s1 (i-1)) := h1 _ (seg_mem _ _ (by omega))
  have hk2 : known (seg s2 (j-1)) := h2 _ (seg_mem _ _ (by omega))
  have hc1 : s1.get? (i-1) = some (seg s1 (i-1)) := get?_eq_seg _ _ (by omega)
  have hc2 : s2.get? (j-1) = some (seg s2 (j-1)) := get?_eq_seg _ _ (by omega)
  have hsub := sigma_sub_eq hk1 hk2
  by_cases hj2 : 1 < j
  · have hq0 : s2.get? (j-2) = some (seg s2 (j-2)) := get?_eq_seg _ _ (by omega)
    have hkq0 : known (seg s2 (j-2)) := h2 _ (seg_mem _ _ (by omega))
    have hexp1 := sigma_exp_eq hk1 hkq0 hk2
    have hnc1 : ¬(SF s1 s2 (i-1) (j-2) +
        expValue (seg s1 (i-1)) (seg s2 (j-2), seg s2 (j-1)) + s ≥ T) :=
      fun hb => hp1 ⟨hj2, hb⟩
    by_cases hi2 : 1 < i
    · have hc0 : s1.get? (i-2) = some (seg s1 (i-2)) := get?_eq_seg _ _ (by omega)
      have hk0 : known (seg s1 (i-2)) := h1 _ (seg_mem _ _ (by omega))
      have hexp2 := sigma_exp_eq hk2 hk0 hk1
      have hnc2 : ¬(SF s1 s2 (i-2) (j-1) +
          expValue (seg s2 (j-1)) (seg s1 (i-2), seg s1 (i-1)) + s ≥ T) :=
        fun hb => hp2 ⟨hi2, hb⟩
      simp only [retrieve, if_neg h0, if_pos hj2, if_pos hi2,
        Option.bind_eq_bind, hc1, hc2, hq0, hc0, Option.some_bind, hexp1,
        hexp2, hsub, Option.pure_def, decide_eq_true_eq, if_neg hnc1,
        if_neg hnc2, if_neg hp3, if_pos hp4]
    · simp only [retrieve, if_neg h0, if_pos hj2, if_neg hi2,
        Option.bind_eq_bind, hc1, hc2, hq0, Option.some_bind, hexp1, hsub,
        Option.pure_def, decide_eq_true_eq, if_neg hnc1, Bool.false_eq_true,
        if_false, if_neg hp3, if_pos hp4]
  · by_cases hi2 : 1 < i
    · have hc0 : s1.get? (i-2) = some (seg s1 (i-2)) := get?_eq_seg _ _ (by omega)
      have hk0 : known (seg s1 (i-2)) := h1 _ (seg_mem _ _ (by omega))
      have hexp2 := sigma_exp_eq hk2 hk0 hk1
      have hnc2 : ¬(SF s1 s2 (i-2) (j-1) +
          expValue (seg s2 (j-1)) (seg s1 (i-2), seg s1 (i-1)) + s ≥ T) :=
        fun hb => hp2 ⟨hi2, hb⟩
      simp only [retrieve, if_neg h0, if_neg hj2, if_pos hi2,
        Option.bind_eq_bind, hc1, hc2, hc0, Option.some_bind, hexp2, hsub,
        Option.pure_def, decide_eq_true_eq, Bool.false_eq_true, if_false,
        if_neg hnc2, if_neg hp3, if_pos hp4]
    · simp only [retrieve, if_neg h0, if_neg hj2, if_neg hi2,
        Option.bind_eq_bind, hc1, hc2, Option.some_bind, hsub,
        Option.pure_def, decide_eq_true_eq, Bool.false_eq_true, if_false,
        if_neg hp3, if_pos hp4]

theorem retrieve_branch5 (s1 s2 : List Char) (h1 : allKnown s1)
    (h2 : allKnown s2) (T : ℚ) (fuel i j : Nat) (s : ℚ) (out : List Pair)
    (hi : i ≤ s1.length) (hj : j ≤ s2.length) (hi1 : 1 ≤ i) (hj1 : 1 ≤ j)
    (h0 : ¬ SF s1 s2 i j = 0)
    (hp1 : ¬(1 < j ∧ SF s1 s2 (i-1) (j-2) +
      expValue (seg s1 (i-1)) (seg s2 (j-2), seg s2 (j-1)) + s ≥ T))
    (hp2 : ¬(1 < i ∧ SF s1 s2 (i-2) (j-1) +
      expValue (seg s2 (j-1)) (seg s1 (i-2), seg s1 (i-1)) + s ≥ T))
    (hp3 : ¬(SF s1 s2 (i-1) (j-1) + subValue (seg s1 (i-1)) (seg s2 (j-1)) + s ≥ T))
    (hp4 : ¬(SF s1 s2 i (j-1) + sigma_skip (seg s2 (j-1)) + s ≥ T))
    (hp5 : SF s1 s2 (i-1) j + sigma_skip (seg s1 (i-1)) + s ≥ T) :
    retrieve (SF s1 s2) T s1 s2 (fuel+1) i j s out =
      retrieve (SF s1 s2) T s1 s2 fuel (i-1) j
        (s + sigma_skip (seg s1 (i-1))) (([seg s1 (i-1)], ['-']) :: out) := by
  have hk1 : known (seg s1 (i-1)) := h1 _ (seg_mem _ _ (by omega))
  have hk2 : known (seg s2 (j-1)) := h2 _ (seg_mem _ _ (by omega))
  have hc1 : s1.get? (i-1) = some (seg s1 (i-1)) := get?_eq_seg _ _ (by omega)
  have hc2 : s2.get? (j-1) = some (seg s2 (j-1)) := get?_eq_seg _ _ (by omega)
  have hsub := sigma_sub_eq hk1 hk2
  by_cases hj2 : 1 < j
  · have hq0 : s2.get? (j-2) = some (seg s2 (j-2)) := get?_eq_seg _ _ (by omega)
    have hkq0 : known (seg s2 (j-2)) := h2 _ (seg_mem _ _ (by omega))
    have hexp1 := sigma_exp_eq hk1 hkq0 hk2
    have hnc1 : ¬(SF s1 s2 (i-1) (j-2) +
        expValue (seg s1 (i-1)) (seg s2 (j-2), seg s2 (j-1)) + s ≥ T) :=
      fun hb => hp1 ⟨hj2, hb⟩
    by_cases hi2 : 1 < i
    · have hc0 : s1.get? (i-2) = some (seg s1 (i-2)) := get?_eq_seg _ _ (by omega)
      have hk0 : known (seg s1 (i-2)) := h1 _ (seg_mem _ _ (by omega))
      have hexp2 := sigma_exp_eq hk2 hk0 hk1
      have hnc2 : ¬(SF s1 s2 (i-2) (j-1) +
          expValue (seg s2 (j-1)) (seg s1 (i-2), seg s1 (i-1)) + s ≥ T) :=
        fun hb => hp2 ⟨hi2, hb⟩
      simp only [retrieve, if_neg h0, if_pos hj2, if_pos hi2,
        Option.bind_eq_bind, hc1, hc2, hq0, hc0, Option.some_bind, hexp1,
        hexp2, hsub, Option.pure_def, decide_eq_true_eq, if_neg hnc1,
        if_neg hnc2, if_neg hp3, if_neg hp4, if_pos hp5]
    · simp only [retrieve, if_neg h0, if_pos hj2, if_neg hi2,
        Option.bind_eq_bind, hc1, hc2, hq0, Option.some_bind, hexp1, hsub,
        Option.pure_def, decide_eq_true_eq, if_neg hnc1, Bool.false_eq_true,
        if_false, if_neg hp3, if_neg hp4, if_pos hp5]
  · by_cases hi2 : 1 < i
    · have hc0 : s1.get? (i-2) = some (seg s1 (i-2)) := get?_eq_seg _ _ (by omega)
      have hk0 : known (seg s1 (i-2)) := h1 _ (seg_mem _ _ (by omega))
      have hexp2 := sigma_exp_eq hk2 hk0 hk1
      have hnc2 : ¬(SF s1 s2 (i-2) (j-1) +
          expValue (seg s2 (j-1)) (seg s1 (i-2), seg s1 (i-1)) + s ≥ T) :=
        fun hb => hp2 ⟨hi2, hb⟩
      simp only [retrieve, if_neg h0, if_neg hj2, if_pos hi2,
        Option.bind_eq_bind, hc1, hc2, hc0, Option.some_bind, hexp2, hsub,
        Option.pure_def, decide_eq_true_eq, Bool.false_eq_true, if_false,
        if_neg hnc2, if_neg hp3, if_neg hp4, if_pos hp5]
    · simp only [retrieve, if_neg h0, if_neg hj2, if_neg hi2,
        Option.bind_eq_bind, hc1, hc2, Option.some_bind, hsub,
        Option.pure_def, decide_eq_true_eq, Bool.false_eq_true, if_false,
        if_neg hp3, if_neg hp4, if_pos hp5]

theorem retrieve_master (s1 s2 : List Char) (h1 : allKnown s1) (h2 : allKnown s2)
    (T : ℚ) :
    ∀ fuel i j s out, i ≤ s1.length → j ≤ s2.length → i + j < fuel →
      T ≤ s + SF s1 s2 i j →
      ∃ path e,
        retrieve (SF s1 s2) T s1 s2 fuel i j s out = some path ∧
        retrieveSpec (SF s1 s2) T s1 s2 fuel i j s out = some path ∧
        retrieveEnd (SF s1 s2) T s1 s2 fuel i j s = some e ∧
        SF s1 s2 e.1 e.2 = 0 ∧ e.1 ≤ s1.length ∧ e.2 ≤ s2.length := by
  intro fuel
  induction fuel with
  | zero => intro i j s out _ _ h3 _; omega
  | succ fuel ih =>
    intro i j s out hi hj hfuel hT
    by_cases h0 : SF s1 s2 i j = 0
    · refine ⟨out, (i, j), ?_, ?_, ?_, h0, hi, hj⟩
      · simp only [retrieve, if_pos h0]
      · simp only [retrieveSpec, if_pos h0]
      · simp only [retrieveEnd, if_pos h0]
    have hi1 : 1 ≤ i := by
      rcases Nat.eq_zero_or_pos i with rfl | h
      · exact absurd (SF_boundary_row s1 s2 j) h0
      · exact h
    have hj1 : 1 ≤ j := by
      rcases Nat.eq_zero_or_pos j with rfl | h
      · exact absurd (SF_boundary_col s1 s2 i) h0
      · exact h
    have hk1 : known (seg s1 (i-1)) := h1 _ (seg_mem _ _ (by omega))
    have hk2 : known (seg s2 (j-1)) := h2 _ (seg_mem _ _ (by omega))
    have hc1 : s1.get? (i-1) = some (seg s1 (i-1)) := get?_eq_seg _ _ (by omega)
    have hc2 : s2.get? (j-1) = some (seg s2 (j-1)) := get?_eq_seg _ _ (by omega)
    have hsub := sigma_sub_eq hk1 hk2
    by_cases hp1 : 1 < j ∧ SF s1 s2 (i-1) (j-2) +
        expValue (seg s1 (i-1)) (seg s2 (j-2), seg s2 (j-1)) + s ≥ T
    · have hj2 : 1 < j := hp1.1
      have hcond1 := hp1.2
      have hq0 : s2.get? (j-2) = some (seg s2 (j-2)) := get?_eq_seg _ _ (by omega)
      have hkq0 : known (seg s2 (j-2)) := h2 _ (seg_mem _ _ (by omega))
      have hexp1 := sigma_exp_eq hk1 hkq0 hk2
      obtain ⟨path, e, hr, hs, he, he0, he1, he2⟩ :=
        ih (i-1) (j-2)
          (s + expValue (seg s1 (i-1)) (seg s2 (j-2), seg s2 (j-1)))
          (([seg s1 (i-1)], [seg s2 (j-2), seg s2 (j-1)]) :: out)
          (by omega) (by omega) (by omega) (by linarith)
      refine ⟨path, e, ?_, ?_, ?_, he0, he1, he2⟩
      · simp only [retrieve, if_neg h0, if_pos hj2, Option.bind_eq_bind, hc1,
          hq0, hc2, Option.some_bind, hexp1, Option.pure_def,
          decide_eq_true_eq, if_pos hcond1]
        exact hr
      · simp only [retrieveSpec, if_neg h0, if_pos hp1]
        exact hs
      · simp only [retrieveEnd, if_neg h0, if_pos hp1]
        exact he
    · by_cases hp2 : 1 < i ∧ SF s1 s2 (i-2) (j-1) +
          expValue (seg s2 (j-1)) (seg s1 (i-2), seg s1 (i-1)) + s ≥ T
      · have hi2 : 1 < i := hp2.1
        have hcond2 := hp2.2
        have hc0 : s1.get? (i-2) = some (seg s1 (i-2)) := get?_eq_seg _ _ (by omega)
        have hk0 : known (seg s1 (i-2)) := h1 _ (seg_mem _ _ (by omega))
        have hexp2 := sigma_exp_eq hk2 hk0 hk1
        obtain ⟨path, e, hr, hs, he, he0, he1, he2⟩ :=
          ih (i-2) (j-1)
            (s + expValue (seg s2 (j-1)) (seg s1 (i-2), seg s1 (i-1)))
            (([seg s1 (i-2), seg s1 (i-1)], [seg s2 (j-1)]) :: out)
            (by omega) (by omega) (by omega) (by linarith)
        refine ⟨path, e, ?_, ?_, ?_, he0, he1, he2⟩
        · have hb2 : retrieve (SF s1 s2) T s1 s2 (fuel+1) i j s out =
              retrieve (SF s1 s2) T s1 s2 fuel (i-2) (j-1)
                (s + expValue (seg s2 (j-1)) (seg s1 (i-2), seg s1 (i-1)))
                (([seg s1 (i-2), seg s1 (i-1)], [seg s2 (j-1)]) :: out) := by
            by_cases hj2 : 1 < j
            · have hq0 : s2.get? (j-2) = some (seg s2 (j-2)) :=
                get?_eq_seg _ _ (by omega)
              have hkq0 : known (seg s2 (j-2)) := h2 _ (seg_mem _ _ (by omega))
              have hexp1 := sigma_exp_eq hk1 hkq0 hk2
              have hnc1 : ¬(SF s1 s2 (i-1) (j-2) +
                  expValue (seg s1 (i-1)) (seg s2 (j-2), seg s2 (j-1)) + s ≥ T) :=
                fun hb => hp1 ⟨hj2, hb⟩
              simp only [retrieve, if_neg h0, if_pos hj2, if_pos hi2,
                Option.bind_eq_bind, hc1, hq0, hc2, hc0, Option.some_bind,
                hexp1, hexp2, Option.pure_def, decide_eq_true_eq,
                if_neg hnc1, if_pos hcond2]
            · simp only [retrieve, if_neg h0, if_neg hj2, if_pos hi2,
                Option.bind_eq_bind, hc1, hc2, hc0, Option.some_bind,
                hexp2, Option.pure_def, decide_eq_true_eq,
                Bool.false_eq_true, if_false, if_pos hcond2]
          rw [hb2]
          exact hr
        · simp only [retrieveSpec, if_neg h0, if_neg hp1, if_pos hp2]
          exact hs
        · simp only [retrieveEnd, if_neg h0, if_neg hp1, if_pos hp2]
          exact he
      · by_cases hp3 : SF s1 s2 (i-1) (j-1) +
            subValue (seg s1 (i-1)) (seg s2 (j-1)) + s ≥ T
        · obtain ⟨path, e, hr, hs, he, he0, he1, he2⟩ :=
            ih (i-1) (j-1) (s + subValue (seg s1 (i-1)) (seg s2 (j-1)))
              (([seg s1 (i-1)], [seg s2 (j-1)]) :: out)
              (by omega) (by omega) (by omega) (by linarith)
          refine ⟨path, e, ?_, ?_, ?_, he0, he1, he2⟩
          · have hb3 : retrieve (SF s1 s2) T s1 s2 (fuel+1) i j s out =
                retrieve (SF s1 s2) T s1 s2 fuel (i-1) (j-1)
                  (s + subValue (seg s1 (i-1)) (seg s2 (j-1)))
                  (([seg s1 (i-1)], [seg s2 (j-1)]) :: out) :=
              retrieve_branch3 s1 s2 h1 h2 T fuel i j s out hi hj hi1 hj1 h0
                hp1 hp2 hp3
            rw [hb3]
            exact hr
          · simp only [retrieveSpec, if_neg h0, if_neg hp1, if_neg hp2,
              if_pos hp3]
            exact hs
          · simp only [retrieveEnd, if_neg h0, if_neg hp1, if_neg hp2,
              if_pos hp3]
            exact he
        · by_cases hp4 : SF s1 s2 i (j-1) + sigma_skip (seg s2 (j-1)) + s ≥ T
          · obtain ⟨path, e, hr, hs, he, he0, he1, he2⟩ :=
              ih i (j-1) (s + sigma_skip (seg s2 (j-1)))
                ((['-'], [seg s2 (j-1)]) :: out)
                (by omega) (by omega) (by omega) (by linarith)
            refine ⟨path, e, ?_, ?_, ?_, he0, he1, he2⟩
            · have hb4 : retrieve (SF s1 s2) T s1 s2 (fuel+1) i j s out =
                  retrieve (SF s1 s2) T s1 s2 fuel i (j-1)
                    (s + sigma_skip (seg s2 (j-1)))
                    ((['-'], [seg s2 (j-1)]) :: out) :=
                retrieve_branch4 s1 s2 h1 h2 T fuel i j s out hi hj hi1 hj1 h0
                  hp1 hp2 hp3 hp4
              rw [hb4]
              exact hr
            · simp only [retrieveSpec, if_neg h0, if_neg hp1, if_neg hp2,
                if_neg hp3, if_pos hp4]
              exact hs
            · simp only [retrieveEnd, if_neg h0, if_neg hp1, if_neg hp2,
                if_neg hp3, if_pos hp4]
              exact he
          · by_cases hp5 : SF s1 s2 (i-1) j + sigma_skip (seg s1 (i-1)) + s ≥ T
            · obtain ⟨path, e, hr, hs, he, he0, he1, he2⟩ :=
                ih (i-1) j (s + sigma_skip (seg s1 (i-1)))
                  (([seg s1 (i-1)], ['-']) :: out)
                  (by omega) (by omega) (by omega) (by linarith)
              refine ⟨path, e, ?_, ?_, ?_, he0, he1, he2⟩
              · have hb5 : retrieve (SF s1 s2) T s1 s2 (fuel+1) i j s out =
                    retrieve (SF s1 s2) T s1 s2 fuel (i-1) j
                      (s + sigma_skip (seg s1 (i-1)))
                      (([seg s1 (i-1)], ['-']) :: out) :=
                  retrieve_branch5 s1 s2 h1 h2 T fuel i j s out hi hj hi1 hj1 h0
                    hp1 hp2 hp3 hp4 hp5
                rw [hb5]
                exact hr
              · simp only [retrieveSpec, if_neg h0, if_neg hp1, if_neg hp2,
                  if_neg hp3, if_neg hp4, if_pos hp5]
                exact hs
              · simp only [retrieveEnd, if_neg h0, if_neg hp1, if_neg hp2,
                  if_neg hp3, if_neg hp4, if_pos hp5]
                exact he
            · exfalso
              have hmem := SF_mem_cands s1 s2 i j hi1 hi hj1 hj h0
              rcases cands_cases hmem with h | h | h | ⟨h4, h⟩ | ⟨h5, h⟩
              · exact hp5 (by linarith)
              · exact hp4 (by linarith)
              · exact hp3 (by linarith)
              · exact hp2 ⟨h4, by linarith⟩
              · exact hp1 ⟨h5, by linarith⟩

-- === Failure on missing segments ===

theorem delta_none_left (c q : Char) (h : dict feature_matrix c = none) :
    delta c q = none := by
  have hdiff : ∀ f, diff c q f = none := by
    intro f
    rw [diff, h]
    rfl
  rw [delta, R]
  split
  · simp [R_c, List.foldlM_cons, hdiff]
  · simp [R_v, List.foldlM_cons, hdiff]

theorem delta_none_right (c q : Char) (h : dict feature_matrix q = none) :
    delta c q = none := by
  have hdiff : ∀ f, diff c q f = none := by
    intro f
    rw [diff]
    cases hc : dict feature_matrix c with
    | none => rfl
    | some e => simp only [Option.bind_eq_bind, Option.some_bind, h,
        Option.none_bind]
  rw [delta, R]
  split
  · simp [R_c, List.foldlM_cons, hdiff]
  · simp [R_v, List.foldlM_cons, hdiff]

theorem sigma_sub_none_left (c q : Char) (h : dict feature_matrix c = none) :
    sigma_sub c q = none := by
  rw [sigma_sub, delta_none_left c q h]
  rfl

theorem sigma_sub_none_right (c q : Char) (h : dict feature_matrix q = none) :
    sigma_sub c q = none := by
  rw [sigma_sub, delta_none_right c q h]
  rfl

theorem mem_cellList {m n i j : Nat} :
    (i, j) ∈ cellList m n ↔ (1 ≤ i ∧ i ≤ m ∧ 1 ≤ j ∧ j ≤ n) := by
  rw [cellList]
  simp only [List.mem_flatten, List.mem_map]
  constructor
  · rintro ⟨l, ⟨i', hi', rfl⟩, hmem⟩
    rw [rowCells] at hmem
    simp only [List.mem_map] at hmem
    obtain ⟨j', hj', hpair⟩ := hmem
    obtain ⟨rfl, rfl⟩ : i' = i ∧ j' = j := by
      cases hpair
      exact ⟨rfl, rfl⟩
    rw [List.mem_range'] at hi' hj'
    obtain ⟨a, ha, rfl⟩ := hi'
    obtain ⟨b, hb, rfl⟩ := hj'
    omega
  · rintro ⟨hh1, hh2, hh3, hh4⟩
    refine ⟨rowCells i n, ⟨i, ?_, rfl⟩, ?_⟩
    · rw [List.mem_range']
      exact ⟨i - 1, by omega, by omega⟩
    · rw [rowCells]
      simp only [List.mem_map]
      refine ⟨j, ?_, rfl⟩
      rw [List.mem_range']
      exact ⟨j - 1, by omega, by omega⟩

theorem buildS_missing (s1 s2 : List Char) (hm : s1 ≠ []) (hn : s2 ≠ [])
    (c : Char) (hc : c ∈ s1 ∨ c ∈ s2) (hnone : dict feature_matrix c = none) :
    buildS s1 s2 = none := by
  rw [buildS]
  have hn1 : 1 ≤ s2.length := by
    cases s2 with
    | nil => exact absurd rfl hn
    | cons d t => simp
  have hm1 : 1 ≤ s1.length := by
    cases s1 with
    | nil => exact absurd rfl hm
    | cons d t => simp
  rcases hc with hc | hc
  · obtain ⟨k, hck⟩ := List.mem_iff_get?.mp hc
    have hk : k < s1.length := by
      obtain ⟨hlt, _⟩ := List.get?_eq_some.mp hck
      exact hlt
    obtain ⟨d, hd⟩ : ∃ d, s2.get? 0 = some d := by
      cases s2 with
      | nil => exact absurd rfl hn
      | cons d t => exact ⟨d, rfl⟩
    have hmem : ((k+1 : Nat), (1 : Nat)) ∈ cellList s1.length s2.length :=
      mem_cellList.mpr ⟨by omega, by omega, by omega, by omega⟩
    refine foldlM_none_of_mem (step s1 s2) _ hmem ?_ _
    intro M
    rw [step]
    have h1 : s1.get? (k+1-1) = some c := by simpa using hck
    simp only [Option.bind_eq_bind, h1, Option.some_bind, hd,
      sigma_sub_none_left c d hnone, Option.none_bind]
  · obtain ⟨k, hck⟩ := List.mem_iff_get?.mp hc
    have hk : k < s2.length := by
      obtain ⟨hlt, _⟩ := List.get?_eq_some.mp hck
      exact hlt
    obtain ⟨d, hd⟩ : ∃ d, s1.get? 0 = some d := by
      cases s1 with
      | nil => exact absurd rfl hm
      | cons d t => exact ⟨d, rfl⟩
    have hmem : ((1 : Nat), (k+1 : Nat)) ∈ cellList s1.length s2.length :=
      mem_cellList.mpr ⟨by omega, by omega, by omega, by omega⟩
    refine foldlM_none_of_mem (step s1 s2) _ hmem ?_ _
    intro M
    rw [step]
    have h2 : s2.get? (k+1-1) = some c := by simpa using hck
    simp only [Option.bind_eq_bind, h2, Option.some_bind, hd,
      sigma_sub_none_right d c hnone, Option.none_bind]

-- === The top-level alignment call ===

theorem align_eq (s1 s2 : List Char) (eps : ℚ) (h1 : allKnown s1)
    (h2 : allKnown s2) :
    align s1 s2 eps =
      ((cellList s1.length s2.length).filter
        (fun p => decide (SF s1 s2 p.1 p.2 ≥
          (1 - eps) * amax (SF s1 s2) s1.length s2.length))).mapM
        (fun p => retrieve (SF s1 s2)
          ((1 - eps) * amax (SF s1 s2) s1.length s2.length) s1 s2
          (s1.length + s2.length + 1) p.1 p.2 0 []) := by
  rw [align, buildS_eq s1 s2 h1 h2]
  rfl

theorem align_length (s1 s2 : List Char) (eps : ℚ) (h1 : allKnown s1)
    (h2 : allKnown s2) :
    ∃ L, align s1 s2 eps = some L ∧
      L.length = ((cellList s1.length s2.length).filter
        (fun p => decide (SF s1 s2 p.1 p.2 ≥
          (1 - eps) * amax (SF s1 s2) s1.length s2.length))).length := by
  rw [align_eq s1 s2 eps h1 h2]
  apply mapM_some_of_forall
  intro p hp
  obtain ⟨i, j⟩ := p
  have hmem := List.mem_filter.mp hp
  have hrange := mem_cellList.mp hmem.1
  have hT : SF s1 s2 i j ≥
      (1 - eps) * amax (SF s1 s2) s1.length s2.length :=
    of_decide_eq_true hmem.2
  obtain ⟨path, e, hr, _, _, _, _, _⟩ :=
    retrieve_master s1 s2 h1 h2
      ((1 - eps) * amax (SF s1 s2) s1.length s2.length)
      (s1.length + s2.length + 1) i j 0 []
      hrange.2.1 hrange.2.2.2 (by omega) (by linarith)
  rw [hr]
  rfl

-- === The claims ===

/-- C1: for inputs whose segments all have Feature Table entries, the score
matrix built by `align` has `S[i,0] = 0` and `S[0,j] = 0`, every interior
cell equals the floored maximum of the five edit scores (the two expansion
candidates present only when `i > 1` resp. `j > 1`), and the alignments are
then retrieved from exactly the cells scoring at least
`T = (1 - epsilon) * max S`. -/
theorem fill_recurrence_and_threshold (s1 s2 : List Char) (eps : ℚ)
    (h1 : allKnown s1) (h2 : allKnown s2) :
    ∃ S, buildS s1 s2 = some S ∧
      (∀ i, S i 0 = 0) ∧
      (∀ j, S 0 j = 0) ∧
      (∀ i j, 1 ≤ i → i ≤ s1.length → 1 ≤ j → j ≤ s2.length →
        some (S i j) = (do
          let e3 ← sigma_sub (seg s1 (i-1)) (seg s2 (j-1))
          let c4 ← if 1 < i then do
              let e ← sigma_exp (seg s2 (j-1)) (seg s1 (i-2), seg s1 (i-1))
              pure [S (i-2) (j-1) + e]
            else pure []
          let c5 ← if 1 < j then do
              let e ← sigma_exp (seg s1 (i-1)) (seg s2 (j-2), seg s2 (j-1))
              pure [S (i-1) (j-2) + e]
            else pure []
          pure (List.foldl max 0
            ([S (i-1) j + sigma_skip (seg s1 (i-1)),
              S i (j-1) + sigma_skip (seg s2 (j-1)),
              S (i-1) (j-1) + e3] ++ c4 ++ c5)))) ∧
      align s1 s2 eps =
        ((cellList s1.length s2.length).filter
          (fun p => decide (S p.1 p.2 ≥
            (1 - eps) * amax S s1.length s2.length))).mapM
          (fun p => retrieve S ((1 - eps) * amax S s1.length s2.length) s1 s2
            (s1.length + s2.length + 1) p.1 p.2 0 []) := by
  refine ⟨SF s1 s2, buildS_eq s1 s2 h1 h2,
    fun i => SF_boundary_col s1 s2 i, fun j => SF_boundary_row s1 s2 j, ?_,
    align_eq s1 s2 eps h1 h2⟩
  intro i j hi1 hi2 hj1 hj2
  have hk1 : known (seg s1 (i-1)) := h1 _ (seg_mem _ _ (by omega))
  have hk2 : known (seg s2 (j-1)) := h2 _ (seg_mem _ _ (by omega))
  have hrec := SF_rec s1 s2 i j hi1 hi2 hj1 hj2
  rw [cellVal, cands] at hrec
  by_cases h4 : 1 < i
  · have hk0 : known (seg s1 (i-2)) := h1 _ (seg_mem _ _ (by omega))
    by_cases h5 : 1 < j
    · have hkq0 : known (seg s2 (j-2)) := h2 _ (seg_mem _ _ (by omega))
      rw [hrec]
      simp only [sigma_sub_eq hk1 hk2, sigma_exp_eq hk2 hk0 hk1,
        sigma_exp_eq hk1 hkq0 hk2, Option.bind_eq_bind, Option.some_bind,
        if_pos h4, if_pos h5, Option.pure_def]
    · rw [hrec]
      simp only [sigma_sub_eq hk1 hk2, sigma_exp_eq hk2 hk0 hk1,
        Option.bind_eq_bind, Option.some_bind, if_pos h4, if_neg h5,
        Option.pure_def]
  · by_cases h5 : 1 < j
    · have hkq0 : known (seg s2 (j-2)) := h2 _ (seg_mem _ _ (by omega))
      rw [hrec]
      simp only [sigma_sub_eq hk1 hk2, sigma_exp_eq hk1 hkq0 hk2,
        Option.bind_eq_bind, Option.some_bind, if_neg h4, if_pos h5,
        Option.pure_def]
    · rw [hrec]
      simp only [sigma_sub_eq hk1 hk2, Option.bind_eq_bind, Option.some_bind,
        if_neg h4, if_neg h5, Option.pure_def]

/-- Witness for C1 at concrete known inputs. -/
theorem fill_recurrence_and_threshold_witness :
    allKnown ['n'] ∧
    (∃ S, buildS ['n'] ['n'] = some S ∧
      (∀ i, S i 0 = 0) ∧
      (∀ j, S 0 j = 0) ∧
      (∀ i j, 1 ≤ i → i ≤ (['n'] : List Char).length → 1 ≤ j →
          j ≤ (['n'] : List Char).length →
        some (S i j) = (do
          let e3 ← sigma_sub (seg ['n'] (i-1)) (seg ['n'] (j-1))
          let c4 ← if 1 < i then do
              let e ← sigma_exp (seg ['n'] (j-1)) (seg ['n'] (i-2), seg ['n'] (i-1))
              pure [S (i-2) (j-1) + e]
            else pure []
          let c5 ← if 1 < j then do
              let e ← sigma_exp (seg ['n'] (i-1)) (seg ['n'] (j-2), seg ['n'] (j-1))
              pure [S (i-1) (j-2) + e]
            else pure []
          pure (List.foldl max 0
            ([S (i-1) j + sigma_skip (seg ['n'] (i-1)),
              S i (j-1) + sigma_skip (seg ['n'] (j-1)),
              S (i-1) (j-1) + e3] ++ c4 ++ c5)))) ∧
      align ['n'] ['n'] 0 =
        ((cellList (['n'] : List Char).length (['n'] : List Char).length).filter
          (fun p => decide (S p.1 p.2 ≥
            (1 - 0) * amax S (['n'] : List Char).length (['n'] : List Char).length))).mapM
          (fun p => retrieve S
            ((1 - 0) * amax S (['n'] : List Char).length (['n'] : List Char).length)
            ['n'] ['n']
            ((['n'] : List Char).length + (['n'] : List Char).length + 1)
            p.1 p.2 0 [])) :=
  ⟨by decide, fill_recurrence_and_threshold ['n'] ['n'] 0 (by decide) (by decide)⟩

/-- C2: for known inputs, every starting cell scoring at least the
threshold yields exactly one retrieval, the retrieval agrees with the
spec's procedure (terminate exactly at a zero cell, otherwise take the
first of the five prioritized moves whose reconstructed score reaches the
threshold, prepending its pair), and `align` returns one alignment per
qualifying cell. -/
theorem retrieval_characterization (s1 s2 : List Char) (eps : ℚ)
    (h1 : allKnown s1) (h2 : allKnown s2) :
    ∃ S, buildS s1 s2 = some S ∧
      (∀ i j, 1 ≤ i → i ≤ s1.length → 1 ≤ j → j ≤ s2.length →
        S i j ≥ (1 - eps) * amax S s1.length s2.length →
        ∃ path, retrieve S ((1 - eps) * amax S s1.length s2.length) s1 s2
            (s1.length + s2.length + 1) i j 0 [] = some path ∧
          retrieveSpec S ((1 - eps) * amax S s1.length s2.length) s1 s2
            (s1.length + s2.length + 1) i j 0 [] = some path) ∧
      ∃ L, align s1 s2 eps = some L ∧
        L.length = ((cellList s1.length s2.length).filter
          (fun p => decide (S p.1 p.2 ≥
            (1 - eps) * amax S s1.length s2.length))).length := by
  refine ⟨SF s1 s2, buildS_eq s1 s2 h1 h2, ?_, align_length s1 s2 eps h1 h2⟩
  intro i j hi1 hi2 hj1 hj2 hq
  obtain ⟨path, e, hr, hs, _, _, _, _⟩ :=
    retrieve_master s1 s2 h1 h2 ((1 - eps) * amax (SF s1 s2) s1.length s2.length)
      (s1.length + s2.length + 1) i j 0 [] hi2 hj2 (by omega) (by linarith)
  exact ⟨path, hr, hs⟩

/-- Witness for C2 at concrete known inputs. -/
theorem retrieval_characterization_witness :
    allKnown ['n'] ∧
    (∃ S, buildS ['n'] ['n'] = some S ∧
      (∀ i j, 1 ≤ i → i ≤ (['n'] : List Char).length → 1 ≤ j →
          j ≤ (['n'] : List Char).length →
        S i j ≥ (1 - 0) * amax S (['n'] : List Char).length (['n'] : List Char).length →
        ∃ path, retrieve S
            ((1 - 0) * amax S (['n'] : List Char).length (['n'] : List Char).length)
            ['n'] ['n']
            ((['n'] : List Char).length + (['n'] : List Char).length + 1)
            i j 0 [] = some path ∧
          retrieveSpec S
            ((1 - 0) * amax S (['n'] : List Char).length (['n'] : List Char).length)
            ['n'] ['n']
            ((['n'] : List Char).length + (['n'] : List Char).length + 1)
            i j 0 [] = some path) ∧
      ∃ L, align ['n'] ['n'] 0 = some L ∧
        L.length = ((cellList (['n'] : List Char).length (['n'] : List Char).length).filter
          (fun p => decide (S p.1 p.2 ≥
            (1 - 0) * amax S (['n'] : List Char).length (['n'] : List Char).length))).length) :=
  ⟨by decide, retrieval_characterization ['n'] ['n'] 0 (by decide) (by decide)⟩

/-- C3 counterexample: the claim as stated fails when the other sequence is
empty: the digit 1 has no Feature Table entry, yet `align "1" "" 0` returns
an empty alignment list instead of failing (no scoring lookup ever runs when
either sequence is empty). -/
theorem missing_segment_counterexample :
    dict feature_matrix '1' = none ∧ align ['1'] [] 0 = some [] :=
  ⟨by decide, rfl⟩

/-- C3 (amended): when both sequences are non-empty, a segment without a
Feature Table entry makes the whole `align` call fail (return `none`, the
missing-segment lookup error) rather than be skipped or scored as zero. -/
theorem missing_segment_fails_nonempty (s1 s2 : List Char) (eps : ℚ)
    (hm : s1 ≠ []) (hn : s2 ≠ [])
    (hmiss : ∃ c, (c ∈ s1 ∨ c ∈ s2) ∧ dict feature_matrix c = none) :
    align s1 s2 eps = none := by
  obtain ⟨c, hc, hnone⟩ := hmiss
  rw [align, buildS_missing s1 s2 hm hn c hc hnone]
  rfl

/-- Witness for the amended C3. -/
theorem missing_segment_fails_nonempty_witness :
    (['1'] : List Char) ≠ [] ∧ (['a'] : List Char) ≠ [] ∧
    (∃ c, (c ∈ (['1'] : List Char) ∨ c ∈ (['a'] : List Char)) ∧
      dict feature_matrix c = none) ∧
    align ['1'] ['a'] 0 = none :=
  ⟨by decide, by decide, ⟨'1', Or.inl (by decide), by decide⟩,
    missing_segment_fails_nonempty ['1'] ['a'] 0 (by decide) (by decide)
      ⟨'1', Or.inl (by decide), by decide⟩⟩

/-- C4: for fixed known inputs, increasing the tolerance never decreases
the number of returned alignments. -/
theorem epsilon_monotone_count (s1 s2 : List Char) (eps1 eps2 : ℚ)
    (h1 : allKnown s1) (h2 : allKnown s2) (he0 : 0 ≤ eps1) (he : eps1 ≤ eps2) :
    ∃ L1 L2, align s1 s2 eps1 = some L1 ∧ align s1 s2 eps2 = some L2 ∧
      L1.length ≤ L2.length := by
  obtain ⟨L1, hL1, hlen1⟩ := align_length s1 s2 eps1 h1 h2
  obtain ⟨L2, hL2, hlen2⟩ := align_length s1 s2 eps2 h1 h2
  refine ⟨L1, L2, hL1, hL2, ?_⟩
  rw [hlen1, hlen2]
  apply filter_length_mono
  intro p _ hq
  have hx := of_decide_eq_true hq
  apply decide_eq_true
  have hmono : (1 - eps2) * amax (SF s1 s2) s1.length s2.length ≤
      (1 - eps1) * amax (SF s1 s2) s1.length s2.length :=
    mul_le_mul_of_nonneg_right (by linarith) (amax_SF_nonneg s1 s2)
  have hx' : SF s1 s2 p.1 p.2 ≥
      (1 - eps1) * amax (SF s1 s2) s1.length s2.length := hx
  exact le_trans hmono hx'

/-- Witness for C4 at concrete known inputs and tolerances 0 and 1. -/
theorem epsilon_monotone_count_witness :
    allKnown ['n'] ∧ (0 : ℚ) ≤ 0 ∧ (0 : ℚ) ≤ 1 ∧
    ∃ L1 L2, align ['n'] ['n'] 0 = some L1 ∧ align ['n'] ['n'] 1 = some L2 ∧
      L1.length ≤ L2.length :=
  ⟨by decide, by with_unfolding_all decide, by with_unfolding_all decide,
    epsilon_monotone_count ['n'] ['n'] 0 1 (by decide) (by decide)
      (by with_unfolding_all decide) (by with_unfolding_all decide)⟩

/-- C5: the weighted feature distance and the substitution score are
symmetric in their two segments. -/
theorem scoring_symmetric (a b : Char) (ha : known a) (hb : known b) :
    delta a b = delta b a ∧ sigma_sub a b = sigma_sub b a :=
  ⟨delta_comm a b, sigma_sub_comm a b⟩

/-- Witness for C5 at a consonant and a vowel. -/
theorem scoring_symmetric_witness :
    known 'p' ∧ known 'i' ∧
    (delta 'p' 'i' = delta 'i' 'p' ∧ sigma_sub 'p' 'i' = sigma_sub 'i' 'p') :=
  ⟨by decide, by decide, scoring_symmetric 'p' 'i' (by decide) (by decide)⟩

/-- C8: the feature distance of a segment with itself is zero, and its
substitution score is `C_sub - 2 * V a`. -/
theorem scoring_self_identity (a : Char) (ha : known a) :
    delta a a = some 0 ∧ sigma_sub a a = some (C_sub - 2 * V a) := by
  refine ⟨delta_self ha, ?_⟩
  rw [sigma_sub, delta_self ha]
  simp only [Option.bind_eq_bind, Option.some_bind, Option.pure_def,
    Option.some.injEq]
  ring

/-- Witness for C8 at a vowel. -/
theorem scoring_self_identity_witness :
    known 'a' ∧
    (delta 'a' 'a' = some 0 ∧ sigma_sub 'a' 'a' = some (C_sub - 2 * V 'a')) :=
  ⟨by decide, scoring_self_identity 'a' (by decide)⟩

set_option maxRecDepth 100000 in
/-- C6: `align "θin" "tenwis" 0` returns exactly the docstring alignment
list, which contains the path θ-t, i-e, n-n, -w, -i, -s. -/
theorem align_docstring_example :
    align ['θ', 'i', 'n'] ['t', 'e', 'n', 'w', 'i', 's'] 0 =
      some [[(['θ'], ['t']), (['i'], ['e']), (['n'], ['n']),
             (['-'], ['w']), (['-'], ['i']), (['-'], ['s'])]] ∧
    [(['θ'], ['t']), (['i'], ['e']), (['n'], ['n']),
     (['-'], ['w']), (['-'], ['i']), (['-'], ['s'])] ∈
      [[(['θ'], ['t']), (['i'], ['e']), (['n'], ['n']),
        (['-'], ['w']), (['-'], ['i']), (['-'], ['s'])]] := by
  constructor
  · with_unfolding_all decide
  · exact List.mem_singleton.mpr rfl

/-- C7: an empty first sequence gives an empty alignment list and no
error, for every second sequence and tolerance. -/
theorem align_empty_first : ∀ (s2 : List Char) (eps : ℚ),
    align [] s2 eps = some [] :=
  fun _ _ => rfl

/-- C9: for known inputs, every cell of the built score matrix is
non-negative. -/
theorem matrix_nonneg (s1 s2 : List Char) (h1 : allKnown s1)
    (h2 : allKnown s2) :
    ∃ S, buildS s1 s2 = some S ∧
      ∀ i j, i ≤ s1.length → j ≤ s2.length → 0 ≤ S i j :=
  ⟨SF s1 s2, buildS_eq s1 s2 h1 h2, fun i j _ _ => SF_nonneg s1 s2 i j⟩

/-- Witness for C9 at concrete known inputs. -/
theorem matrix_nonneg_witness :
    allKnown ['n'] ∧
    (∃ S, buildS ['n'] ['n'] = some S ∧
      ∀ i j, i ≤ (['n'] : List Char).length → j ≤ (['n'] : List Char).length →
        0 ≤ S i j) :=
  ⟨by decide, matrix_nonneg ['n'] ['n'] (by decide) (by decide)⟩

/-- C10: with the default `C_skip = 10 > 0` and non-empty known inputs,
every interior cell scores at least `C_skip` (hence is non-zero), the
maximum is at least `C_skip`, and every retrieval from a qualifying cell
ends at a zero-score cell in row 0 or column 0. -/
theorem interior_cells_positive (s1 s2 : List Char) (eps : ℚ)
    (h1 : allKnown s1) (h2 : allKnown s2) (hm : s1 ≠ []) (hn : s2 ≠ []) :
    C_skip = 10 ∧ (0 : ℚ) < C_skip ∧
    ∃ S, buildS s1 s2 = some S ∧
      (∀ i j, 1 ≤ i → i ≤ s1.length → 1 ≤ j → j ≤ s2.length →
        C_skip ≤ S i j ∧ S i j ≠ 0) ∧
      C_skip ≤ amax S s1.length s2.length ∧
      (∀ i j, 1 ≤ i → i ≤ s1.length → 1 ≤ j → j ≤ s2.length →
        S i j ≥ (1 - eps) * amax S s1.length s2.length →
        ∃ e, retrieveEnd S ((1 - eps) * amax S s1.length s2.length) s1 s2
            (s1.length + s2.length + 1) i j 0 = some e ∧
          (e.1 = 0 ∨ e.2 = 0) ∧ S e.1 e.2 = 0) := by
  have hm1 : 1 ≤ s1.length := List.length_pos.mpr hm
  have hn1 : 1 ≤ s2.length := List.length_pos.mpr hn
  refine ⟨rfl, by norm_num [C_skip], SF s1 s2, buildS_eq s1 s2 h1 h2, ?_, ?_, ?_⟩
  · intro i j hi1 hi2 hj1 hj2
    have hge := SF_ge_skip s1 s2 i j hi1 hi2 hj1 hj2
    refine ⟨hge, fun h0 => ?_⟩
    rw [h0] at hge
    norm_num [C_skip] at hge
  · exact le_trans (SF_ge_skip s1 s2 1 1 (by omega) hm1 (by omega) hn1)
      (le_amax _ _ _ 1 1 hm1 hn1)
  · intro i j hi1 hi2 hj1 hj2 hq
    obtain ⟨path, e, _, _, he, he0, he1, he2⟩ :=
      retrieve_master s1 s2 h1 h2
        ((1 - eps) * amax (SF s1 s2) s1.length s2.length)
        (s1.length + s2.length + 1) i j 0 [] hi2 hj2 (by omega) (by linarith)
    refine ⟨e, he, ?_, he0⟩
    by_contra hcon
    push_neg at hcon
    obtain ⟨hne1, hne2⟩ := hcon
    have hge := SF_ge_skip s1 s2 e.1 e.2 (by omega) he1 (by omega) he2
    rw [he0] at hge
    norm_num [C_skip] at hge

/-- Witness for C10 at concrete known inputs. -/
theorem interior_cells_positive_witness :
    allKnown ['n'] ∧ (['n'] : List Char) ≠ [] ∧
    (C_skip = 10 ∧ (0 : ℚ) < C_skip ∧
    ∃ S, buildS ['n'] ['n'] = some S ∧
      (∀ i j, 1 ≤ i → i ≤ (['n'] : List Char).length → 1 ≤ j →
          j ≤ (['n'] : List Char).length →
        C_skip ≤ S i j ∧ S i j ≠ 0) ∧
      C_skip ≤ amax S (['n'] : List Char).length (['n'] : List Char).length ∧
      (∀ i j, 1 ≤ i → i ≤ (['n'] : List Char).length → 1 ≤ j →
          j ≤ (['n'] : List Char).length →
        S i j ≥ (1 - 0) * amax S (['n'] : List Char).length (['n'] : List Char).length →
        ∃ e, retrieveEnd S
            ((1 - 0) * amax S (['n'] : List Char).length (['n'] : List Char).length)
            ['n'] ['n']
            ((['n'] : List Char).length + (['n'] : List Char).length + 1)
            i j 0 = some e ∧
          (e.1 = 0 ∨ e.2 = 0) ∧ S e.1 e.2 = 0)) :=
  ⟨by decide, by decide,
    interior_cells_positive ['n'] ['n'] 0 (by decide) (by decide)
      (by decide) (by decide)⟩

end Aline
